import Mathlib

/-!
Verification development for the media-report formatter in
`crates/ffmpeg/fftools/simple_ffprobe.c`.

The C file is shallowly embedded below.  Machine integers are modelled as
`Int`/`Nat` with C truncating division (`Int.tdiv`/`Int.tmod`) and explicit
bounds (`INT64_MAX`, 2^63, ...) where overflow matters; `double` values that
the formatter only rounds and prints are modelled as exact rationals `ℚ`
(the printf rendering and `lrintf` are modelled with round-half-to-even,
which is the IEEE-754 default rounding used by both).  Code paths that are
undefined behaviour in C (division by zero, out-of-bounds stream access)
make the embedded function return `none`; allocation success of the
"printed" marker set is an explicit boolean parameter.  The process-wide
log level (`av_log_get_level`) and the incremental `av_log` printing are
re-architected as an explicit `level : Int` parameter and a returned
`String`, following the spec's design notes.  Library routines of
FFmpeg that are not part of the repository (dictionary access, rational
helpers, codec/pixel-format name tables) are modelled from the spec, as
marked on each definition.
-/

/- The Batteries rational primitives are `irreducible`, which blocks
elaborator-side evaluation of concrete rationals in `decide` proofs; the
kernel unfolds them regardless.  Restore default reducibility so concrete
witnesses evaluate. -/
set_option allowUnsafeReducibility true in
attribute [semireducible] Rat.ofScientific Rat.mul Rat.inv Rat.add Rat.sub

namespace SimpleFFprobe

/-- Round a rational to the nearest integer, ties to even: the behaviour of
C `lrintf`/`lrint` in the default floating-point environment, and of printf
fraction rounding, on an exactly represented value. -/
def rint (q : ℚ) : ℤ :=
  let f := ⌊q⌋
  let r := q - (f : ℚ)
  if r < 1/2 then f
  else if 1/2 < r then f + 1
  else if f % 2 = 0 then f else f + 1

/-- Zero-pad a digit string on the left to width `w` (printf `%0wd` for a
non-negative value). -/
def padZeros (s : String) (w : Nat) : String :=
  String.mk (List.replicate (w - s.length) '0') ++ s

/-- printf `%.<prec>f` of an exactly-represented value: fixed-point decimal
with `prec` digits after the point, rounding half to even.  (The width
fields used in the C file, `%1`/`%3`, never exceed the rendered length, so
they add no padding.) -/
def formatFixed (q : ℚ) (prec : Nat) : String :=
  let scaled := (rint (|q| * (10 ^ prec : ℚ))).toNat
  let ip := scaled / 10 ^ prec
  let fp := scaled % 10 ^ prec
  (if q < 0 then "-" else "") ++ toString ip ++
    (if prec = 0 then "" else "." ++ padZeros (toString fp) prec)

/-- `print_fps` (simple_ffprobe.c:76-86).  `uint64_t v = lrintf(d * 100)`
is modelled as round-half-even of the exact value, wrapped to 64 bits as
the `long` → `uint64_t` conversion does (for `d*100` beyond `int64` range
`lrintf` itself is undefined behaviour; theorems stay below that bound). -/
def print_fps (d : ℚ) (unitStr : String) : String :=
  let v : ℤ := (rint (d * 100)).emod (2 ^ 64)
  if v = 0 then formatFixed d 4 ++ " " ++ unitStr
  else if v % 100 ≠ 0 then formatFixed d 2 ++ " " ++ unitStr
  else if v % (100 * 1000) ≠ 0 then formatFixed d 0 ++ " " ++ unitStr
  else formatFixed (d / 1000) 0 ++ "k " ++ unitStr

/-- The classification of `print_fps` as worded by the spec (§4.2) and
claim C2: round `d*100` to the nearest integer with ties AWAY FROM ZERO.
Kept only to compare against the code's `lrintf` semantics. -/
def rint_away (q : ℚ) : ℤ :=
  if 0 ≤ q then ⌊q + 1/2⌋ else -⌊-q + 1/2⌋

/-- `print_fps` as claim C2 words it: same branches, but the classifying
value is rounded with ties away from zero. -/
def print_fps_claim (d : ℚ) (unitStr : String) : String :=
  let v : ℤ := (rint_away (d * 100)).emod (2 ^ 64)
  if v = 0 then formatFixed d 4 ++ " " ++ unitStr
  else if v % 100 ≠ 0 then formatFixed d 2 ++ " " ++ unitStr
  else if v % (100 * 1000) ≠ 0 then formatFixed d 0 ++ " " ++ unitStr
  else formatFixed (d / 1000) 0 ++ "k " ++ unitStr

/-- The five bytes of the `strcspn` set `"\x8\xa\xb\xc\xd"` in
`dump_metadata` (simple_ffprobe.c:60). -/
def ctlByte (c : Char) : Bool :=
  c = '\x08' || c = '\x0a' || c = '\x0b' || c = '\x0c' || c = '\x0d'

/-- printf `%-16s`: left-justified, blank-padded to at least 16 columns. -/
def pad16 (s : String) : String :=
  s ++ String.mk (List.replicate (16 - s.length) ' ')

/-- A metadata dictionary: ordered key/value pairs.
Modelled from the spec: `AVDictionary` (libavutil, outside this
repository) is "a key/value metadata collection" preserving insertion
order (§3); a NULL dictionary and an empty one coincide with `[]`. -/
def AVDict : Type := List (String × String)

instance : DecidableEq AVDict := by unfold AVDict; infer_instance

/-- Modelled from the spec: `av_dict_count` (libavutil) — the number of
entries. -/
def av_dict_count (m : AVDict) : Nat := m.length

/-- Modelled from the spec: `av_dict_get` (libavutil) — look up the entry
with the given key ("a metadata entry \"language\" exists", §4.5/§4.3). -/
def av_dict_get (m : AVDict) (key : String) : Option String :=
  (m.find? (fun e => e.1 = key)).map (·.2)

/-- The inner `while (*p)` loop of `dump_metadata`
(simple_ffprobe.c:59-69), written with a step-count (`fuel`) so that it is
structurally recursive; each iteration consumes at least one character,
so `p.length + 1` steps always suffice (`dumpTagValue` below): split the
value at the control bytes, printing at most 255 characters of each run
(`%.*s` with `FFMIN(255, len)`), a space for 0x0D, a line break plus a
blank-key continuation line head for 0x0A, and nothing for the other
control bytes. -/
def dumpTagValueGo (indent : String) : Nat → List Char → String
  | 0, _ => ""
  | fuel + 1, p =>
      let run := (p.takeWhile fun c => !ctlByte c).take 255
      match p.dropWhile (fun c => !ctlByte c) with
      | [] => String.mk run
      | c :: tail =>
          String.mk run
            ++ (if c = '\x0d' then " " else "")
            ++ (if c = '\x0a' then "\n" ++ indent ++ "  " ++ pad16 "" ++ ": " else "")
            ++ dumpTagValueGo indent fuel tail

/-- The value-printing loop of `dump_metadata` (simple_ffprobe.c:59-69),
with enough fuel for the whole value. -/
def dumpTagValue (indent : String) (p : List Char) : String :=
  dumpTagValueGo indent (p.length + 1) p

/-- No character of the list is one of the five control bytes. -/
def ctlFree (l : List Char) : Bool := l.all (fun c => !ctlByte c)

/-- One entry of the `while ((tag = av_dict_iterate ...))` loop of
`dump_metadata` (simple_ffprobe.c:54-71): entries keyed `"language"` are
skipped (`strcmp`, exact match), the others get a
`"<indent>  <key padded to 16>: <value>\n"` block. -/
def tagBlock (indent : String) (k v : String) : String :=
  if k ≠ "language" then
    indent ++ "  " ++ pad16 k ++ ": " ++ dumpTagValue indent v.data ++ "\n"
  else ""

/-- `dump_metadata` (simple_ffprobe.c:48-73). -/
def dump_metadata (m : AVDict) (indent : String) : String :=
  if m ≠ ([] : AVDict) ∧ ¬(av_dict_count m = 1 ∧ (av_dict_get m "language").isSome) then
    indent ++ "Metadata:\n" ++
      String.join (m.map (fun e => tagBlock indent e.1 e.2))
  else ""

/-! ## Rational helpers (libavutil, outside the repository) -/

/-- `AVRational` (libavutil/rational.h): numerator/denominator pair of C
`int`s. -/
structure AVRational where
  num : Int
  den : Int
deriving DecidableEq

/-- Modelled from the spec: `av_gcd` (libavutil) — "plain GCD-based
reduction" (§4.1) uses the gcd of the absolute values. -/
def av_gcd (a b : Int) : Int := (Int.gcd a b : Int)

/-- `INT64_MAX`. -/
def INT64_MAX : Int := 2 ^ 63 - 1

/-- `INT_MIN` (32-bit). -/
def INT_MIN : Int := -(2 ^ 31)

/-- `AV_NOPTS_VALUE = INT64_MIN`: the "unset" timestamp. -/
def AV_NOPTS_VALUE : Int := -(2 ^ 63)

/-- `AV_TIME_BASE` (microseconds per second). -/
def AV_TIME_BASE : Int := 1000000

/-- Modelled from the spec: `av_cmp_q` (libavutil/rational.h) — compares
two rationals by cross-multiplication (§4.5 step 4 "differs from"); it
returns 0 exactly when the two ratios are equal (with both denominators
non-zero), a sign otherwise, and `INT_MIN` when both are of the
indeterminate 0/0 form.  All products are exact here (C computes them in
`int64_t` from `int` fields). -/
def av_cmp_q (a b : AVRational) : Int :=
  let tmp := a.num * b.den - b.num * a.den
  if tmp ≠ 0 then
    if (decide (tmp < 0) != decide (a.den < 0)) != decide (b.den < 0) then -1 else 1
  else if b.den ≠ 0 ∧ a.den ≠ 0 then 0
  else if a.num ≠ 0 ∧ b.num ≠ 0 then
    (if a.num < 0 then -1 else 0) - (if b.num < 0 then -1 else 0)
  else INT_MIN

/-- Modelled from the spec: the bounded continued-fraction loop of
`av_reduce` (libavutil/rational.c), the "standard bounded rational
approximation via continued-fraction/GCD reduction" of §4.1
(RationalReducer).  `num`/`den` are non-negative here; `nextDen` is the C
`num - den * x`. -/
def reduceLoop (bound : Int) (num den : Int) (a0 a1 : Int × Int) : Int × Int :=
  if h : den ≤ 0 then a1
  else
    let x := num.tdiv den
    let nextDen := num.tmod den
    let a2n := x * a1.1 + a0.1
    let a2d := x * a1.2 + a0.2
    if a2n > bound ∨ a2d > bound then
      let x1 := if a1.1 ≠ 0 then (bound - a0.1).tdiv a1.1 else x
      let x2 := if a1.2 ≠ 0 then min x1 ((bound - a0.2).tdiv a1.2) else x1
      if den * (2 * x2 * a1.2 + a0.2) > num * a1.2 then
        (x2 * a1.1 + a0.1, x2 * a1.2 + a0.2)
      else a1
    else
      reduceLoop bound den nextDen a1 (a2n, a2d)
termination_by den.toNat
decreasing_by
  have h2 : num.tmod den < den := Int.tmod_lt_of_pos num (by omega)
  omega

/-- Modelled from the spec: `av_reduce` (libavutil/rational.c) — reduce
`num/den` to smallest terms bounded by `bound` (§4.1). -/
def av_reduce (num den bound : Int) : Int × Int :=
  let sign : Bool := decide (num < 0) != decide (den < 0)
  let g : Int := av_gcd num den
  let n : Int := if g ≠ 0 then (num.natAbs : Int).tdiv g else (num.natAbs : Int)
  let d : Int := if g ≠ 0 then (den.natAbs : Int).tdiv g else (den.natAbs : Int)
  let a1 := if n ≤ bound ∧ d ≤ bound then (n, d) else reduceLoop bound n d (0, 1) (1, 0)
  (if sign then -a1.1 else a1.1, a1.2)

/-- `av_q2d`: the rational as a real value.  Modelled exactly in `ℚ`; the
callers in this file only apply it to rationals they have checked to have
non-zero numerator and denominator. -/
def av_q2d (a : AVRational) : ℚ := (a.num : ℚ) / (a.den : ℚ)

/-! ## Codec parameters and `print_codec` -/

/-- Log level constants (libavutil/log.h). -/
def AV_LOG_INFO : Int := 32

/-- `AV_LOG_VERBOSE`. -/
def AV_LOG_VERBOSE : Int := 40

/-- `AV_LOG_DEBUG`. -/
def AV_LOG_DEBUG : Int := 48

/-- `AVMediaType`: the five known media types plus `unknown`
(`AVMEDIA_TYPE_UNKNOWN`, the `default` of the C switches). -/
inductive AVMediaType
  | video | audio | data | subtitle | attachment | unknown
deriving DecidableEq

/-- Modelled from the spec: `av_get_media_type_string` (libavutil) — the
lower-case type name, NULL for unknown ("media-type-or-unknown", §4.4). -/
def av_get_media_type_string : AVMediaType → Option String
  | .video => some "video"
  | .audio => some "audio"
  | .data => some "data"
  | .subtitle => some "subtitle"
  | .attachment => some "attachment"
  | .unknown => none

/-- Modelled from the spec: a codec identifier (§3 "codec identifier;
codec display name") carrying the results of the external lookup tables:
`avcodec_get_name` and `av_get_bits_per_sample` (0 when the codec has no
known fixed bits-per-sample). -/
structure AVCodecID where
  name : String
  bits_per_sample : Int
deriving DecidableEq

/-- Modelled from the spec: the pixel-format descriptor data used by
`print_codec` — `av_get_pix_fmt_name` (NULL possible) and
`av_pix_fmt_desc_get(..)->comp[0].depth` (§4.4 "the pixel format's native
component depth"). -/
structure PixFmtDesc where
  name : Option String
  comp0_depth : Int
deriving DecidableEq

/-- Modelled from the spec: the sample-format data used by `print_codec`
— `av_get_sample_fmt_name` and `av_get_bytes_per_sample` (§4.4 "the
sample format's native byte-width"). -/
structure SampleFmtDesc where
  name : Option String
  bytes_per_sample : Int
deriving DecidableEq

/-- `av_get_bytes_per_sample` on a possibly-`NONE` sample format: 0 for
`AV_SAMPLE_FMT_NONE`. -/
def bytesPerSample : Option SampleFmtDesc → Int
  | none => 0
  | some f => f.bytes_per_sample

/-- `AVChannelLayout`, with the text produced for it by
`av_channel_layout_describe_bprint` (modelled from the spec: "channel
layout (describable as text)", §3). -/
structure AVChannelLayout where
  nb_channels : Int
  description : String
deriving DecidableEq

/-- `AVFieldOrder`. -/
inductive FieldOrder
  | unknown | progressive | tt | bb | tb | bt
deriving DecidableEq

/-- The codec-parameter data consumed by the formatter (§3
CodecParameters).  Name-table lookups on enum fields are carried as their
results: `profile_name` is `avcodec_profile_name(codec_id, profile)`
(NULL when no profile name is known), `fourcc` is
`av_fourcc2str(codec_tag)`, `pix_fmt`/`sample_fmt` are `none` for the
`..._NONE` sentinel values, `color_range_name` (resp.
`chroma_location_name`) is `some` exactly when the field is not
`..._UNSPECIFIED` and the name table has an entry, and each of the three
colour-description fields keeps its specified flag and its (possibly
NULL) table name separately, as `print_codec` uses both.  Defaults are
the zero values of a fresh `AVCodecParameters`. -/
structure AVCodecParameters where
  codec_type : AVMediaType := .unknown
  codec_id : AVCodecID := { name := "none", bits_per_sample := 0 }
  codec_tag : Nat := 0
  fourcc : String := ""
  profile_name : Option String := none
  width : Int := 0
  height : Int := 0
  sample_aspect_ratio : AVRational := { num := 0, den := 1 }
  pix_fmt : Option PixFmtDesc := none
  bits_per_raw_sample : Int := 0
  color_range_name : Option String := none
  colorspace_specified : Bool := false
  colorspace_name : Option String := none
  color_primaries_specified : Bool := false
  color_primaries_name : Option String := none
  color_trc_specified : Bool := false
  color_trc_name : Option String := none
  field_order : FieldOrder := .unknown
  chroma_location_name : Option String := none
  sample_rate : Int := 0
  ch_layout : AVChannelLayout := { nb_channels := 0, description := "" }
  sample_fmt : Option SampleFmtDesc := none
  initial_padding : Int := 0
  trailing_padding : Int := 0
  bit_rate : Int := 0
deriving DecidableEq

/-- The `AVCodecContext` fields read by `print_codec` beyond the
parameters: the defaults are the values set by `avcodec_alloc_context3`
and left untouched by `avcodec_parameters_to_context` (time base 0/1,
`refs` 1, no coded size, no rate-control max rate, no attached codec, no
dump separator), so a context built by `dump_stream_format` is exactly
`{ toAVCodecParameters := st.codecpar, dump_separator := some sep }`.
`codec_name` models `enc->codec ? enc->codec->name : NULL`. -/
structure AVCodecContext extends AVCodecParameters where
  time_base : AVRational := { num := 0, den := 1 }
  rc_max_rate : Int := 0
  refs : Int := 1
  coded_width : Int := 0
  coded_height : Int := 0
  prop_closed_captions : Bool := false
  prop_film_grain : Bool := false
  prop_lossless : Bool := false
  codec_name : Option String := none
  dump_separator : Option String := none
deriving DecidableEq

/-- `get_bit_rate` (simple_ffprobe.c:88-115).  The audio product
`sample_rate * nb_channels` is exact (`int * int64_t`); the guard against
64-bit overflow of the final multiply uses C truncating division. -/
def get_bit_rate (ctx : AVCodecContext) : Int :=
  match ctx.codec_type with
  | .video | .data | .subtitle | .attachment => ctx.bit_rate
  | .audio =>
      let bits_per_sample := ctx.codec_id.bits_per_sample
      if bits_per_sample ≠ 0 then
        let br := ctx.sample_rate * ctx.ch_layout.nb_channels
        if br > INT64_MAX.tdiv bits_per_sample then 0 else br * bits_per_sample
      else ctx.bit_rate
  | .unknown => 0

/-- `unknown_if_null` (simple_ffprobe.c:117-119). -/
def unknown_if_null (s : Option String) : String := s.getD "unknown"

/-- printf `%x`: lower-case hex, no padding. -/
def hexLower (n : Nat) : String := String.mk (Nat.toDigits 16 n)

/-- printf `%04X`: upper-case hex, zero-padded to at least 4 digits. -/
def hex4Upper (n : Nat) : String :=
  let s := (Nat.toDigits 16 n).map Char.toUpper
  String.mk (List.replicate (4 - s.length) '0' ++ s)

/-- The header part of `print_codec` (simple_ffprobe.c:136-151): type,
codec name, decoder name when it differs, profile, reference frames (video
at verbose), codec tag. -/
def codecHead (enc : AVCodecContext) (level : Int) : String :=
  let codec_name := enc.codec_id.name
  unknown_if_null (av_get_media_type_string enc.codec_type) ++ ": " ++ codec_name
  ++ (match enc.codec_name with
      | some n => if n ≠ codec_name then " (" ++ n ++ ")" else ""
      | none => "")
  ++ (match enc.profile_name with
      | some p => " (" ++ p ++ ")"
      | none => "")
  ++ (if enc.codec_type = .video ∧ level ≥ AV_LOG_VERBOSE ∧ enc.refs ≠ 0 then
        ", " ++ toString enc.refs ++ " reference frame"
          ++ (if enc.refs > 1 then "s" else "")
      else "")
  ++ (if enc.codec_tag ≠ 0 then
        " (" ++ enc.fourcc ++ " / 0x" ++ hex4Upper enc.codec_tag ++ ")"
      else "")

/-- The bitrate tail of `print_codec` (simple_ffprobe.c:281-287), reached
by every switch case except the early-returning `default`. -/
def bitrateTail (enc : AVCodecContext) : String :=
  let bitrate := get_bit_rate enc
  if bitrate ≠ 0 then ", " ++ toString (bitrate.tdiv 1000) ++ " kb/s"
  else if enc.rc_max_rate > 0 then
    ", max. " ++ toString (enc.rc_max_rate.tdiv 1000) ++ " kb/s"
  else ""

/-- The `AVMEDIA_TYPE_VIDEO` case of `print_codec`
(simple_ffprobe.c:154-235).  `none` models the undefined division by zero
at line 223 when the time base is 0/0 at debug level (the data case at
line 268 guards the gcd, this one does not). -/
def videoCase (enc : AVCodecContext) (level : Int) (separator : String) : Option String :=
  let pixStr := separator ++ (match enc.pix_fmt with
    | none => "none"
    | some d => unknown_if_null d.name)
  let bpcStr := match enc.pix_fmt with
    | some d =>
        if enc.bits_per_raw_sample ≠ 0 ∧ enc.bits_per_raw_sample < d.comp0_depth then
          toString enc.bits_per_raw_sample ++ " bpc, "
        else ""
    | none => ""
  let rangeStr := match enc.color_range_name with
    | some s => s ++ ", "
    | none => ""
  let colorsSpecified :=
    enc.colorspace_specified ∨ enc.color_primaries_specified ∨ enc.color_trc_specified
  let col := unknown_if_null enc.colorspace_name
  let pri := unknown_if_null enc.color_primaries_name
  let trc := unknown_if_null enc.color_trc_name
  let new_line := colorsSpecified ∧ (col ≠ pri ∨ col ≠ trc)
  let colorsStr :=
    if colorsSpecified then
      if col ≠ pri ∨ col ≠ trc then col ++ "/" ++ pri ++ "/" ++ trc ++ ", "
      else col ++ ", "
    else ""
  let fieldStr :=
    if enc.field_order ≠ .unknown then
      (match enc.field_order with
       | .tt => "top first"
       | .bb => "bottom first"
       | .tb => "top coded first (swapped)"
       | .bt => "bottom coded first (swapped)"
       | _ => "progressive") ++ ", "
    else ""
  let chromaStr :=
    if level ≥ AV_LOG_VERBOSE then
      match enc.chroma_location_name with
      | some s => s ++ ", "
      | none => ""
    else ""
  let widthBlock : Option String :=
    if enc.width ≠ 0 then
      let base := (if new_line then separator else ", ")
        ++ toString enc.width ++ "x" ++ toString enc.height
      let coded :=
        if level ≥ AV_LOG_VERBOSE ∧ enc.coded_width ≠ 0 ∧ enc.coded_height ≠ 0 ∧
            (enc.width ≠ enc.coded_width ∨ enc.height ≠ enc.coded_height) then
          " (" ++ toString enc.coded_width ++ "x" ++ toString enc.coded_height ++ ")"
        else ""
      let sar :=
        if enc.sample_aspect_ratio.num ≠ 0 then
          let dar := av_reduce (enc.width * enc.sample_aspect_ratio.num)
                               (enc.height * enc.sample_aspect_ratio.den) (1024 * 1024)
          " [SAR " ++ toString enc.sample_aspect_ratio.num ++ ":"
            ++ toString enc.sample_aspect_ratio.den
            ++ " DAR " ++ toString dar.1 ++ ":" ++ toString dar.2 ++ "]"
        else ""
      let tbStr : Option String :=
        if level ≥ AV_LOG_DEBUG then
          let g := av_gcd enc.time_base.num enc.time_base.den
          if g = 0 then none
          else some (", " ++ toString (enc.time_base.num.tdiv g) ++ "/"
            ++ toString (enc.time_base.den.tdiv g))
        else some ""
      tbStr.map (fun t => base ++ coded ++ sar ++ t)
    else some ""
  let props := (if enc.prop_closed_captions then ", Closed Captions" else "")
    ++ (if enc.prop_film_grain then ", Film Grain" else "")
    ++ (if enc.prop_lossless then ", lossless" else "")
  widthBlock.map (fun wb =>
    pixStr ++ bpcStr ++ rangeStr ++ colorsStr ++ fieldStr ++ chromaStr ++ wb ++ props)

/-- The `AVMEDIA_TYPE_AUDIO` case of `print_codec`
(simple_ffprobe.c:236-264). -/
def audioCase (enc : AVCodecContext) (level : Int) (separator : String) : String :=
  separator
  ++ (if enc.sample_rate ≠ 0 then toString enc.sample_rate ++ " Hz, " else "")
  ++ enc.ch_layout.description
  ++ (match enc.sample_fmt with
      | some f => match f.name with
        | some s => ", " ++ s
        | none => ""
      | none => "")
  ++ (if enc.bits_per_raw_sample > 0 ∧
        enc.bits_per_raw_sample ≠ bytesPerSample enc.sample_fmt * 8 then
      " (" ++ toString enc.bits_per_raw_sample ++ " bit)"
    else "")
  ++ (if level ≥ AV_LOG_VERBOSE then
      (if enc.initial_padding ≠ 0 then ", delay " ++ toString enc.initial_padding else "")
      ++ (if enc.trailing_padding ≠ 0 then
            ", padding " ++ toString enc.trailing_padding
          else "")
    else "")

/-- The `AVMEDIA_TYPE_DATA` case of `print_codec`
(simple_ffprobe.c:265-272): reduced time base at debug level, with the
gcd guarded against zero. -/
def dataCase (enc : AVCodecContext) (level : Int) : String :=
  if level ≥ AV_LOG_DEBUG then
    let g := av_gcd enc.time_base.num enc.time_base.den
    if g ≠ 0 then
      ", " ++ toString (enc.time_base.num.tdiv g) ++ "/"
        ++ toString (enc.time_base.den.tdiv g)
    else ""
  else ""

/-- The `AVMEDIA_TYPE_SUBTITLE` case of `print_codec`
(simple_ffprobe.c:273-276). -/
def subtitleCase (enc : AVCodecContext) : String :=
  if enc.width ≠ 0 then ", " ++ toString enc.width ++ "x" ++ toString enc.height else ""

/-- `print_codec` (simple_ffprobe.c:121-288).  The untyped `default` case
(unknown and attachment types) returns before the bitrate tail; the
output printed up to that point is the header. -/
def print_codec (enc : AVCodecContext) (level : Int) : Option String :=
  let separator := enc.dump_separator.getD ", "
  let head := codecHead enc level
  match enc.codec_type with
  | .video => (videoCase enc level separator).map (fun b => head ++ b ++ bitrateTail enc)
  | .audio => some (head ++ audioCase enc level separator ++ bitrateTail enc)
  | .data => some (head ++ dataCase enc level ++ bitrateTail enc)
  | .subtitle => some (head ++ subtitleCase enc ++ bitrateTail enc)
  | .attachment | .unknown => some head

/-! ## Streams, containers, `dump_stream_format`, `dump_format` -/

/-- The 18 disposition flags, in the fixed order checked by
`dump_stream_format` (simple_ffprobe.c:353-388); the bitmask becomes a
record of named booleans (spec §9, design notes). -/
structure AVDisposition where
  flag_default : Bool := false
  dub : Bool := false
  original : Bool := false
  comment : Bool := false
  lyrics : Bool := false
  karaoke : Bool := false
  forced : Bool := false
  hearing_impaired : Bool := false
  visual_impaired : Bool := false
  clean_effects : Bool := false
  attached_pic : Bool := false
  timed_thumbnails : Bool := false
  captions : Bool := false
  descriptions : Bool := false
  flag_metadata : Bool := false
  dependent : Bool := false
  still_image : Bool := false
  non_diegetic : Bool := false
deriving DecidableEq

/-- The disposition tag sequence of `dump_stream_format`
(simple_ffprobe.c:353-388). -/
def dispositionTags (d : AVDisposition) : String :=
  (if d.flag_default then " (default)" else "")
  ++ (if d.dub then " (dub)" else "")
  ++ (if d.original then " (original)" else "")
  ++ (if d.comment then " (comment)" else "")
  ++ (if d.lyrics then " (lyrics)" else "")
  ++ (if d.karaoke then " (karaoke)" else "")
  ++ (if d.forced then " (forced)" else "")
  ++ (if d.hearing_impaired then " (hearing impaired)" else "")
  ++ (if d.visual_impaired then " (visual impaired)" else "")
  ++ (if d.clean_effects then " (clean effects)" else "")
  ++ (if d.attached_pic then " (attached pic)" else "")
  ++ (if d.timed_thumbnails then " (timed thumbnails)" else "")
  ++ (if d.captions then " (captions)" else "")
  ++ (if d.descriptions then " (descriptions)" else "")
  ++ (if d.flag_metadata then " (metadata)" else "")
  ++ (if d.dependent then " (dependent)" else "")
  ++ (if d.still_image then " (still image)" else "")
  ++ (if d.non_diegetic then " (non-diegetic)" else "")

/-- `AVStream` as read by `dump_stream_format` (§3 Stream). -/
structure AVStream where
  id : Int := 0
  codecpar : AVCodecParameters := {}
  sample_aspect_ratio : AVRational := { num := 0, den := 1 }
  avg_frame_rate : AVRational := { num := 0, den := 0 }
  r_frame_rate : AVRational := { num := 0, den := 0 }
  time_base : AVRational := { num := 0, den := 0 }
  disposition : AVDisposition := {}
  metadata : AVDict := []
deriving DecidableEq

/-- `AVChapter` (§3 Chapter).  `endTime` is the C field `end`. -/
structure AVChapter where
  start : Int := 0
  endTime : Int := 0
  time_base : AVRational := { num := 0, den := 1 }
  metadata : AVDict := []
deriving DecidableEq

/-- `AVProgram` as read by `dump_format` (§3 Program). -/
structure AVProgram where
  id : Int := 0
  metadata : AVDict := []
  stream_index : List Nat := []
deriving DecidableEq

/-- `AVFormatContext` as read by `dump_format` (§3 Container).
`iformat_name` is `ic->iformat->name`; `nb_streams` is
`streams.length`.  `dump_separator` carries libavformat's option default
`", "`; it is an `AVOption`-managed string that is non-NULL in any
allocated context. -/
structure AVFormatContext where
  iformat_name : String := ""
  metadata : AVDict := []
  duration : Int := AV_NOPTS_VALUE
  start_time : Int := AV_NOPTS_VALUE
  bit_rate : Int := 0
  streams : List AVStream := []
  chapters : List AVChapter := []
  programs : List AVProgram := []
  dump_separator : String := ", "
deriving DecidableEq

/-- The codec context built by `dump_stream_format`
(simple_ffprobe.c:298-309): a fresh `avcodec_alloc_context3(NULL)`
context (all `AVCodecContext`-only fields at their defaults) filled from
the stream's codec parameters, with the container's dump separator set on
it. -/
def stream_avctx (ic : AVFormatContext) (st : AVStream) : AVCodecContext :=
  { toAVCodecParameters := st.codecpar, dump_separator := some ic.dump_separator }

/-- The stream-level SAR/DAR block of `dump_stream_format`
(simple_ffprobe.c:322-333): emitted when the stream's own
sample-aspect-ratio numerator is non-zero and the ratio differs (by
`av_cmp_q`) from the codec-parameter one; the DAR is the bounded
reduction of width×SAR-num over height×SAR-den with bound 1024×1024.
Unlike the codec-summary-level block of `print_codec`, the format is
`", SAR a:b DAR c:d"` — comma-separated, no brackets. -/
def streamSarBlock (st : AVStream) : String :=
  if st.sample_aspect_ratio.num ≠ 0 ∧
      av_cmp_q st.sample_aspect_ratio st.codecpar.sample_aspect_ratio ≠ 0 then
    let dar := av_reduce (st.codecpar.width * st.sample_aspect_ratio.num)
                         (st.codecpar.height * st.sample_aspect_ratio.den)
                         (1024 * 1024)
    ", SAR " ++ toString st.sample_aspect_ratio.num ++ ":"
      ++ toString st.sample_aspect_ratio.den
      ++ " DAR " ++ toString dar.1 ++ ":" ++ toString dar.2
  else ""

/-- The frame-rate trio of `dump_stream_format`
(simple_ffprobe.c:336-350), for video streams only; `separator` is the
container's dump separator. -/
def streamFpsBlock (separator : String) (st : AVStream) : String :=
  if st.codecpar.codec_type = .video then
    let fps := st.avg_frame_rate.den ≠ 0 ∧ st.avg_frame_rate.num ≠ 0
    let tbr := st.r_frame_rate.den ≠ 0 ∧ st.r_frame_rate.num ≠ 0
    let tbn := st.time_base.den ≠ 0 ∧ st.time_base.num ≠ 0
    (if fps ∨ tbr ∨ tbn then separator else "")
    ++ (if fps then
          print_fps (av_q2d st.avg_frame_rate) (if tbr ∨ tbn then "fps, " else "fps")
        else "")
    ++ (if tbr then
          print_fps (av_q2d st.r_frame_rate) (if tbn then "tbr, " else "tbr")
        else "")
    ++ (if tbn then print_fps (1 / av_q2d st.time_base) "tbn" else "")
  else ""

/-- `dump_stream_format` (simple_ffprobe.c:291-398).  `none` models
undefined behaviour: an out-of-bounds stream index (`ic->streams[i]`), or
a failure inside `print_codec`.  The context and `dump_separator`
allocations are modelled as succeeding (their failure merely drops the
stream's block and decides no claim). -/
def dump_stream_format (ic : AVFormatContext) (i : Nat) (index : Nat) (level : Int) :
    Option String :=
  match ic.streams[i]? with
  | none => none
  | some st =>
    (print_codec (stream_avctx ic st) level).map (fun codecStr =>
      "  Stream #" ++ toString index ++ ":" ++ toString i
        ++ "[0x" ++ hexLower ((st.id.emod (2 ^ 32)).toNat) ++ "]" ++ ": " ++ codecStr
        ++ streamSarBlock st ++ streamFpsBlock ic.dump_separator st
        ++ dispositionTags st.disposition ++ "\n"
        ++ dump_metadata st.metadata "    ")

/-- Modelled from the spec: `av_rescale(a, b, c)` (libavutil) — `a*b/c`
rounded to the nearest integer, halves away from zero; `dump_format`
applies it with `b = c = AV_TIME_BASE`, where it is the identity.  Inputs
at that call are non-negative. -/
def av_rescale (a b c : Int) : Int := (2 * a * b + c).tdiv (2 * c)

/-- printf `%02...d` of a signed value: zero-padded to width 2 (padding
goes between sign and digits, so only a lone digit is padded). -/
def c_pad2 (n : Int) : String :=
  if 0 ≤ n ∧ n < 10 then "0" ++ toString n else toString n

/-- The duration field of the duration line (simple_ffprobe.c:417-433):
HH:MM:SS.CC of the duration plus the 5000-microsecond bias (applied only
when it does not overflow `int64`), with C truncating division, or "N/A"
when the duration is `AV_NOPTS_VALUE`. -/
def durationPart (ic : AVFormatContext) : String :=
  if ic.duration ≠ AV_NOPTS_VALUE then
    let duration := ic.duration + (if ic.duration ≤ INT64_MAX - 5000 then 5000 else 0)
    let secs0 := duration.tdiv AV_TIME_BASE
    let us := duration.tmod AV_TIME_BASE
    let mins0 := secs0.tdiv 60
    let secs := secs0.tmod 60
    let hours := mins0.tdiv 60
    let mins := mins0.tmod 60
    c_pad2 hours ++ ":" ++ c_pad2 mins ++ ":" ++ c_pad2 secs ++ "."
      ++ c_pad2 ((100 * us).tdiv AV_TIME_BASE)
  else "N/A"

/-- C conversion of a wider signed integer value to `int` (32 bits):
reduce modulo 2^32 into [-2^31, 2^31), the implementation-defined
behaviour of the compilers this code builds with. -/
def toInt32 (x : Int) : Int :=
  if x.emod (2 ^ 32) < 2 ^ 31 then x.emod (2 ^ 32) else x.emod (2 ^ 32) - 2 ^ 32

/-- The start-time clause (simple_ffprobe.c:436-443), present only when
the start time is set: sign from the original value, whole seconds and
microseconds via `llabs` and `av_rescale`.  `secs` and `us` are C
`int`s and the printed microsecond value is an `(int)` cast, so each of
the three stores goes through `toInt32`: the seconds wrap for
|start_time| ≥ 2^31·10^6 µs, while the microsecond values stay below
10^6 and convert exactly. -/
def startPart (ic : AVFormatContext) : String :=
  if ic.start_time ≠ AV_NOPTS_VALUE then
    let secs : Int := toInt32 ((ic.start_time.tdiv AV_TIME_BASE).natAbs : Int)
    let us : Int := toInt32 ((ic.start_time.tmod AV_TIME_BASE).natAbs : Int)
    ", start: " ++ (if ic.start_time ≥ 0 then "" else "-") ++ toString secs ++ "."
      ++ padZeros (toString (toInt32 (av_rescale us 1000000 AV_TIME_BASE))) 6
  else ""

/-- The bitrate field (simple_ffprobe.c:446-450). -/
def bitratePart (ic : AVFormatContext) : String :=
  if ic.bit_rate ≠ 0 then toString (ic.bit_rate.tdiv 1000) ++ " kb/s" else "N/A"

/-- The duration / start / bitrate line of `dump_format`
(simple_ffprobe.c:417-451). -/
def durationSegment (ic : AVFormatContext) : String :=
  "  Duration: " ++ durationPart ic ++ startPart ic
    ++ ", bitrate: " ++ bitratePart ic ++ "\n"

/-- The duration field as claim C7 words it. -/
def durationClaimPart (ic : AVFormatContext) : String :=
  if ic.duration ≠ AV_NOPTS_VALUE then
    let t := ic.duration + (if ic.duration ≤ INT64_MAX - 5000 then 5000 else 0)
    let secsAll := t.tdiv 1000000
    let hours := (secsAll.tdiv 60).tdiv 60
    let mins := (secsAll.tdiv 60).tmod 60
    let secs := secsAll.tmod 60
    let hundredths := (100 * t.tmod 1000000).tdiv 1000000
    c_pad2 hours ++ ":" ++ c_pad2 mins ++ ":" ++ c_pad2 secs ++ "." ++ c_pad2 hundredths
  else "N/A"

/-- The start-time clause as claim C7 words it: "-" only for a negative
start, magnitude via absolute value, microseconds zero-padded to 6
digits. -/
def startClaimPart (ic : AVFormatContext) : String :=
  if ic.start_time ≠ AV_NOPTS_VALUE then
    ", start: " ++ (if ic.start_time ≥ 0 then "" else "-")
      ++ toString ((ic.start_time.tdiv 1000000).natAbs)
      ++ "." ++ padZeros (toString ((ic.start_time.tmod 1000000).natAbs)) 6
  else ""

/-- The start-time clause as the amended claim C7 words it: "-" only for
a negative start, the seconds magnitude reduced by the C `long long` →
`int` conversion (modulo 2^32 into [-2^31, 2^31)), the microsecond
magnitude zero-padded to 6 digits. -/
def startWrapClaimPart (ic : AVFormatContext) : String :=
  if ic.start_time ≠ AV_NOPTS_VALUE then
    ", start: " ++ (if ic.start_time ≥ 0 then "" else "-")
      ++ toString (toInt32 ((ic.start_time.tdiv 1000000).natAbs))
      ++ "." ++ padZeros (toString ((ic.start_time.tmod 1000000).natAbs)) 6
  else ""

/-- The bitrate field as claim C7 words it: bit rate divided by 1000, or
"N/A" when unset. -/
def bitrateClaimPart (ic : AVFormatContext) : String :=
  if ic.bit_rate ≠ 0 then toString (ic.bit_rate.tdiv 1000) ++ " kb/s" else "N/A"

/-- The chapter block of `dump_format` (simple_ffprobe.c:454-465); the
`index` printed in `"Chapter #%d:%d"` is the constant 0 of
`dump_format`.  Chapter boundaries are `double` products rendered with
printf `%f` (6 decimals). -/
def chapterSegment (ic : AVFormatContext) : String :=
  if ic.chapters.length ≠ 0 then
    "  Chapters:\n" ++ String.join (ic.chapters.enum.map (fun e =>
      "    Chapter #0:" ++ toString e.1 ++ ": "
        ++ "start " ++ formatFixed ((e.2.start : ℚ) * av_q2d e.2.time_base) 6 ++ ", "
        ++ "end " ++ formatFixed ((e.2.endTime : ℚ) * av_q2d e.2.time_base) 6 ++ "\n"
        ++ dump_metadata e.2.metadata "      "))
  else ""

/-- The program loop of `dump_format` (simple_ffprobe.c:470-482): emits
each program's header, metadata and listed streams in order, marks every
listed index in the `printed` byte array (`List Bool` here; `List.set`
beyond the array is the out-of-bounds write, excluded by the §3 validity
invariant in every theorem), and accumulates the claimed-stream total. -/
def programsPass (ic : AVFormatContext) (level : Int) :
    Option (String × List Bool × Nat) :=
  ic.programs.foldlM (fun acc p => do
      let hdr := "  Program " ++ toString p.id ++ " "
        ++ ((av_dict_get p.metadata "name").getD "") ++ "\n"
        ++ dump_metadata p.metadata "    "
      let sp ← p.stream_index.foldlM (fun (sp : String × List Bool) idx => do
          let out ← dump_stream_format ic idx 0 level
          pure (sp.1 ++ out, sp.2.set idx true)) (("", acc.2.1) : String × List Bool)
      pure (acc.1 ++ hdr ++ sp.1, sp.2, acc.2.2 + p.stream_index.length))
    (("", List.replicate ic.streams.length false, 0) : String × List Bool × Nat)

/-- `dump_format` (simple_ffprobe.c:401-493).  `allocOk` is whether
`av_mallocz(nb_streams)` for the `printed` marker array succeeds; the C
makes `printed` NULL either when that allocation fails or when
`nb_streams` is zero, and returns with no output on NULL (`none`).
`none` also models the undefined behaviour of an invalid program stream
index.  The trailing loop re-dumps exactly the unmarked streams. -/
def dump_format (ic : AVFormatContext) (url : String) (level : Int) (allocOk : Bool) :
    Option String :=
  if ic.streams.length ≠ 0 ∧ allocOk then do
    let pp ←
      if ic.programs.length ≠ 0 then do
        let r ← programsPass ic level
        pure (r.1 ++ (if r.2.2 < ic.streams.length then "  No Program\n" else ""), r.2.1)
      else pure (("", List.replicate ic.streams.length false) : String × List Bool)
    let restStr ← (List.range ic.streams.length).foldlM (fun acc i =>
        if pp.2.getD i false then pure acc
        else (dump_stream_format ic i 0 level).map (fun s => acc ++ s)) ""
    pure ("Input #0, " ++ ic.iformat_name ++ ", from '" ++ url ++ "':\n"
      ++ dump_metadata ic.metadata "  "
      ++ durationSegment ic
      ++ chapterSegment ic
      ++ pp.1 ++ restStr)
  else none

/-- Mark every index of `l` in the `printed` byte array. -/
def markAll (pr : List Bool) (l : List Nat) : List Bool :=
  l.foldl (fun p i => p.set i true) pr

/-- One program's output block (simple_ffprobe.c:471-480): header with
id and optional "name" metadata entry, program metadata, then the blocks
of every listed stream in listing order. -/
def programBlock (ic : AVFormatContext) (level : Int) (p : AVProgram) : String :=
  "  Program " ++ toString p.id ++ " " ++ ((av_dict_get p.metadata "name").getD "") ++ "\n"
    ++ dump_metadata p.metadata "    "
    ++ String.join (p.stream_index.map (fun i => (dump_stream_format ic i 0 level).getD ""))

/-- The §3 validity invariant: every stream index listed by a program is
a valid index into the container's stream sequence (without it the C
marker write and stream access are out of bounds). -/
def validPrograms (ic : AVFormatContext) : Prop :=
  ∀ p ∈ ic.programs, ∀ i ∈ p.stream_index, i < ic.streams.length

instance (ic : AVFormatContext) : Decidable (validPrograms ic) := by
  unfold validPrograms; infer_instance

/-- Whether some program lists stream `i`: for an in-range `i` this is
the final value of its `printed` marker after the program loop. -/
def listedByPrograms (ic : AVFormatContext) (i : Nat) : Bool :=
  ic.programs.any (fun p => p.stream_index.contains i)

/-! ## Concrete fixtures used by witnesses and counterexamples -/

/-- Audio codec parameters: AAC, no fixed bits-per-sample. -/
def aacPar : AVCodecParameters :=
  { codec_type := .audio, codec_id := { name := "aac", bits_per_sample := 0 } }

/-- Video codec parameters: 4x3 rawvideo (unset pixel format). -/
def rawvideoPar : AVCodecParameters :=
  { codec_type := .video, codec_id := { name := "rawvideo", bits_per_sample := 0 },
    width := 4, height := 3 }

/-- The same video parameters with codec-parameter-level SAR 1:1. -/
def rawvideoParSar11 : AVCodecParameters :=
  { rawvideoPar with sample_aspect_ratio := { num := 1, den := 1 } }

/-- A one-audio-stream container. -/
def oneStreamIc : AVFormatContext :=
  { iformat_name := "mov", streams := [{ codecpar := aacPar }] }

/-- An audio stream carrying a "language" tag. -/
def langStream : AVStream :=
  { codecpar := aacPar, metadata := [("language", "eng")] }

/-- A container whose single audio stream carries a "language" tag. -/
def langIc : AVFormatContext :=
  { iformat_name := "mov", streams := [langStream] }

/-- A container whose single video stream has time base 0/0. -/
def tb00Ic : AVFormatContext :=
  { streams := [{ codecpar := rawvideoPar, time_base := { num := 0, den := 0 } }] }

/-- A video stream with stream-level SAR 2:1 over codec-parameter SAR
1:1. -/
def sarStream : AVStream :=
  { codecpar := rawvideoParSar11, sample_aspect_ratio := { num := 2, den := 1 } }

/-- A container holding only `sarStream`. -/
def sarIc : AVFormatContext := { streams := [sarStream] }

/-- An attachment codec context with a non-zero declared bit rate. -/
def attCtx : AVCodecContext :=
  { codec_type := .attachment, codec_id := { name := "ttf", bits_per_sample := 0 },
    bit_rate := 8000 }

/-- A PCM audio codec context: fixed 16 bits per sample, 48 kHz stereo. -/
def pcmCtx : AVCodecContext :=
  { codec_type := .audio,
    codec_id := { name := "pcm_s16le", bits_per_sample := 16 },
    sample_rate := 48000,
    ch_layout := { nb_channels := 2, description := "stereo" } }

/-- A container with two streams and two programs that both list stream
0 (stream 1 stays unassigned). -/
def progIc : AVFormatContext :=
  { iformat_name := "mpegts",
    streams := [{ codecpar := aacPar }, { codecpar := rawvideoPar, id := 17 }],
    programs := [{ id := 1, stream_index := [0] }, { id := 2, stream_index := [0] }] }

/-- A container with duration, negative start time and bit rate set. -/
def durIc : AVFormatContext :=
  { streams := [{ codecpar := aacPar }],
    duration := 1500000, start_time := -500000, bit_rate := 1234567 }

/-- A container whose start time is 3·10^9 seconds (3·10^15 µs): the
seconds magnitude 3000000000 does not fit in a 32-bit `int`. -/
def bigStartIc : AVFormatContext :=
  { streams := [{ codecpar := aacPar }], start_time := 3000000000000000 }

/-! ## Supporting lemmas -/

theorem dumpTagValueGo_fuel (indent : String) :
    ∀ f1 f2 p, p.length < f1 → p.length < f2 →
      dumpTagValueGo indent f1 p = dumpTagValueGo indent f2 p := by
  intro f1
  induction f1 with
  | zero => intro f2 p h1 _; omega
  | succ a ih =>
    intro f2 p h1 h2
    match f2 with
    | 0 => omega
    | b + 1 =>
      simp only [dumpTagValueGo]
      cases hd : p.dropWhile (fun c => !ctlByte c) with
      | nil => rfl
      | cons c tail =>
        have hlen : (p.dropWhile (fun c => !ctlByte c)).length ≤ p.length :=
          (List.dropWhile_sublist _).length_le
        rw [hd] at hlen
        simp only [List.length_cons] at hlen
        dsimp only
        rw [ih b tail (by omega) (by omega)]

theorem takeWhile_append_ctl (a : List Char) (c : Char) (b : List Char)
    (ha : ctlFree a = true) (hc : ctlByte c = true) :
    (a ++ c :: b).takeWhile (fun x => !ctlByte x) = a := by
  induction a with
  | nil => simp [List.takeWhile_cons, hc]
  | cons x xs ih =>
    simp only [ctlFree, List.all_cons, Bool.and_eq_true] at ha
    simp [List.takeWhile_cons, ha.1, ih ha.2]

theorem dropWhile_append_ctl (a : List Char) (c : Char) (b : List Char)
    (ha : ctlFree a = true) (hc : ctlByte c = true) :
    (a ++ c :: b).dropWhile (fun x => !ctlByte x) = c :: b := by
  induction a with
  | nil => simp [List.dropWhile_cons, hc]
  | cons x xs ih =>
    simp only [ctlFree, List.all_cons, Bool.and_eq_true] at ha
    simp [List.dropWhile_cons, ha.1, ih ha.2]

/-- The recurrence of the C value loop at a control byte: everything up
to the first control byte (truncated to 255 characters) is printed, the
control byte becomes its substitution, and the loop continues after it. -/
theorem dumpTagValue_append_ctl (indent : String) (a : List Char) (c : Char)
    (b : List Char) (ha : ctlFree a = true) (hc : ctlByte c = true) :
    dumpTagValue indent (a ++ c :: b) =
      String.mk (a.take 255)
        ++ (if c = '\x0d' then " " else "")
        ++ (if c = '\x0a' then "\n" ++ indent ++ "  " ++ pad16 "" ++ ": " else "")
        ++ dumpTagValue indent b := by
  have step : dumpTagValue indent (a ++ c :: b) =
      dumpTagValueGo indent ((a ++ c :: b).length + 1) (a ++ c :: b) := rfl
  rw [step]
  simp only [dumpTagValueGo]
  rw [takeWhile_append_ctl a c b ha hc, dropWhile_append_ctl a c b ha hc]
  dsimp only
  rw [dumpTagValueGo_fuel indent ((a ++ c :: b).length) (b.length + 1) b
    (by simp; omega) (by omega)]
  rfl

/-- A value with no control byte prints as its first 255 characters. -/
theorem dumpTagValue_ctlFree (indent : String) (a : List Char)
    (ha : ctlFree a = true) :
    dumpTagValue indent a = String.mk (a.take 255) := by
  have hall : ∀ x ∈ a, (fun c => !ctlByte c) x = true := by
    intro x hx
    exact List.all_eq_true.mp ha x hx
  unfold dumpTagValue
  simp only [dumpTagValueGo]
  rw [List.dropWhile_eq_nil_iff.mpr hall, List.takeWhile_eq_self_iff.mpr hall]

theorem av_gcd_ne_zero {a b : Int} (h : a ≠ 0 ∨ b ≠ 0) : av_gcd a b ≠ 0 := by
  unfold av_gcd
  simp only [ne_eq, Int.natCast_eq_zero]
  intro hg
  rcases Int.gcd_eq_zero_iff.mp hg with ⟨h1, h2⟩
  rcases h with h | h <;> contradiction

theorem videoCase_isSome (enc : AVCodecContext) (level : Int) (sep : String)
    (h : enc.time_base.num ≠ 0 ∨ enc.time_base.den ≠ 0) :
    (videoCase enc level sep).isSome = true := by
  unfold videoCase
  dsimp only
  rw [Option.isSome_map']
  by_cases hw : enc.width ≠ 0
  · rw [if_pos hw, Option.isSome_map']
    by_cases hdbg : level ≥ AV_LOG_DEBUG
    · rw [if_pos hdbg, if_neg (av_gcd_ne_zero h)]
      rfl
    · rw [if_neg hdbg]
      rfl
  · rw [if_neg hw]
    rfl

theorem print_codec_isSome (enc : AVCodecContext) (level : Int)
    (h : enc.time_base.num ≠ 0 ∨ enc.time_base.den ≠ 0) :
    (print_codec enc level).isSome = true := by
  unfold print_codec
  cases hct : enc.codec_type <;> dsimp only
  case video =>
    rw [Option.isSome_map']
    exact videoCase_isSome enc level _ h
  all_goals rfl

theorem stream_avctx_time_base (ic : AVFormatContext) (st : AVStream) :
    (stream_avctx ic st).time_base = { num := 0, den := 1 } := rfl

theorem dump_stream_format_isSome (ic : AVFormatContext) (i index : Nat) (level : Int)
    (hi : i < ic.streams.length) :
    (dump_stream_format ic i index level).isSome = true := by
  unfold dump_stream_format
  rw [List.getElem?_eq_getElem hi]
  dsimp only
  rw [Option.isSome_map']
  exact print_codec_isSome _ level (by rw [stream_avctx_time_base]; right; decide)

theorem foldlM_option_isSome {α β : Type} (f : β → α → Option β) (l : List α) :
    ∀ b : β, (∀ x ∈ l, ∀ acc, (f acc x).isSome = true) →
      (l.foldlM f b).isSome = true := by
  induction l with
  | nil => intro b _; rfl
  | cons x xs ih =>
    intro b h
    rw [List.foldlM_cons]
    obtain ⟨c, hc⟩ := Option.isSome_iff_exists.mp (h x (by simp) b)
    rw [hc]
    show (xs.foldlM f c).isSome = true
    exact ih c (fun y hy acc => h y (List.mem_cons_of_mem _ hy) acc)

theorem programsPass_isSome (ic : AVFormatContext) (level : Int)
    (hv : validPrograms ic) :
    (programsPass ic level).isSome = true := by
  unfold programsPass
  apply foldlM_option_isSome
  intro p hp acc
  dsimp only
  obtain ⟨r, hr⟩ := Option.isSome_iff_exists.mp
    (foldlM_option_isSome
      (fun (sp : String × List Bool) idx =>
        (dump_stream_format ic idx 0 level).map (fun out => (sp.1 ++ out, sp.2.set idx true)))
      p.stream_index ("", acc.2.1)
      (fun idx hidx acc' => by
        rw [Option.isSome_map']
        exact dump_stream_format_isSome ic idx 0 level (hv p hp idx hidx)))
  have hr' : (p.stream_index.foldlM (fun (sp : String × List Bool) idx => do
      let out ← dump_stream_format ic idx 0 level
      pure (sp.1 ++ out, sp.2.set idx true)) (("", acc.2.1) : String × List Bool)).isSome = true := by
    rw [show (fun (sp : String × List Bool) idx => do
        let out ← dump_stream_format ic idx 0 level
        pure (sp.1 ++ out, sp.2.set idx true)) =
      (fun (sp : String × List Bool) idx =>
        (dump_stream_format ic idx 0 level).map
          (fun out => (sp.1 ++ out, sp.2.set idx true))) from ?_, hr]
    · rfl
    · funext sp idx
      cases dump_stream_format ic idx 0 level <;> rfl
  obtain ⟨r2, hr2⟩ := Option.isSome_iff_exists.mp hr'
  rw [hr2]
  rfl

theorem dump_format_restFold_isSome (ic : AVFormatContext) (level : Int)
    (pp : String × List Bool) :
    ((List.range ic.streams.length).foldlM (fun acc i =>
      if pp.2.getD i false then pure acc
      else (dump_stream_format ic i 0 level).map (fun s => acc ++ s)) "").isSome = true := by
  apply foldlM_option_isSome
  intro i hi acc
  dsimp only
  split
  · rfl
  · rw [Option.isSome_map']
    exact dump_stream_format_isSome ic i 0 level (List.mem_range.mp hi)

theorem dump_format_isSome (ic : AVFormatContext) (url : String) (level : Int)
    (h1 : ic.streams.length ≠ 0) (hv : validPrograms ic) :
    (dump_format ic url level true).isSome = true := by
  unfold dump_format
  rw [if_pos ⟨h1, rfl⟩]
  have hpp := dump_format_restFold_isSome ic level
  by_cases hprog : ic.programs.length ≠ 0
  · rw [if_pos hprog]
    obtain ⟨r, hr⟩ := Option.isSome_iff_exists.mp (programsPass_isSome ic level hv)
    rw [hr]
    simp only [Option.pure_def, bind, Option.bind]
    obtain ⟨s, hs⟩ := Option.isSome_iff_exists.mp (hpp (r.1 ++ (if r.2.2 < ic.streams.length
      then "  No Program\n" else ""), r.2.1))
    simp only [Option.pure_def] at hs
    rw [hs]
    rfl
  · rw [if_neg hprog]
    simp only [Option.pure_def, bind, Option.bind]
    obtain ⟨s, hs⟩ := Option.isSome_iff_exists.mp
      (hpp ("", List.replicate ic.streams.length false))
    simp only [Option.pure_def] at hs
    rw [hs]
    rfl

/-! ## Claim C5 -/

/-- C5: `dump_metadata` emits nothing for an empty mapping or for a
mapping whose single entry is keyed "language"; otherwise it emits the
"Metadata:" header at the given indent and one block per non-"language"
entry with the key padded to 16 characters; inside a value a 0x0D byte is
replaced by a single space, a 0x0A byte produces a line break followed by
the blank-key continuation head (so one embedded 0x0A yields two lines),
and the bytes 0x08/0x0B/0x0C are absorbed with no visible
substitution. -/
theorem C5_metadata_dumper :
    (∀ indent, dump_metadata [] indent = "")
    ∧ (∀ indent v, dump_metadata [("language", v)] indent = "")
    ∧ (∀ indent (m : AVDict), m ≠ [] →
        ¬(av_dict_count m = 1 ∧ (av_dict_get m "language").isSome) →
        dump_metadata m indent =
          indent ++ "Metadata:\n"
            ++ String.join (m.map (fun e => tagBlock indent e.1 e.2)))
    ∧ (∀ indent k v, k ≠ "language" →
        tagBlock indent k v =
          indent ++ "  " ++ pad16 k ++ ": " ++ dumpTagValue indent v.data ++ "\n")
    ∧ (∀ indent v, tagBlock indent "language" v = "")
    ∧ (∀ indent (a b : List Char), ctlFree a = true → a.length ≤ 255 →
        dumpTagValue indent (a ++ '\x0d' :: b) =
          String.mk a ++ " " ++ dumpTagValue indent b)
    ∧ (∀ indent (a b : List Char), ctlFree a = true → a.length ≤ 255 →
        dumpTagValue indent (a ++ '\x0a' :: b) =
          String.mk a ++ ("\n" ++ indent ++ "  " ++ pad16 "" ++ ": ")
            ++ dumpTagValue indent b)
    ∧ (∀ indent (a b : List Char) (c : Char), ctlFree a = true → a.length ≤ 255 →
        (c = '\x08' ∨ c = '\x0b' ∨ c = '\x0c') →
        dumpTagValue indent (a ++ c :: b) = String.mk a ++ dumpTagValue indent b)
    ∧ (∀ indent (a : List Char), ctlFree a = true → a.length ≤ 255 →
        dumpTagValue indent a = String.mk a) := by
  refine ⟨?_, ?_, ?_, ?_, ?_, ?_, ?_, ?_, ?_⟩
  · intro indent
    simp [dump_metadata]
  · intro indent v
    simp [dump_metadata, av_dict_count, av_dict_get]
  · intro indent m h1 h2
    rw [dump_metadata, if_pos ⟨h1, h2⟩]
  · intro indent k v hk
    rw [tagBlock, if_pos hk]
  · intro indent v
    rw [tagBlock, if_neg (by simp)]
  · intro indent a b ha hlen
    rw [dumpTagValue_append_ctl indent a '\x0d' b ha (by decide),
      List.take_of_length_le hlen, if_pos rfl, if_neg (by decide)]
    simp
  · intro indent a b ha hlen
    rw [dumpTagValue_append_ctl indent a '\x0a' b ha (by decide),
      List.take_of_length_le hlen, if_neg (by decide), if_pos rfl]
    simp
  · intro indent a b c ha hlen hc
    have h1 : ¬(c = '\x0d') := by rcases hc with h | h | h <;> subst h <;> decide
    have h2 : ¬(c = '\x0a') := by rcases hc with h | h | h <;> subst h <;> decide
    have h3 : ctlByte c = true := by rcases hc with h | h | h <;> subst h <;> decide
    rw [dumpTagValue_append_ctl indent a c b ha h3,
      List.take_of_length_le hlen, if_neg h1, if_neg h2]
    simp
  · intro indent a ha hlen
    rw [dumpTagValue_ctlFree indent a ha, List.take_of_length_le hlen]

/-- Witness for C5 at concrete inputs. -/
theorem C5_metadata_dumper_witness :
    (("title" : String) ≠ "language")
    ∧ tagBlock "    " "title" "T" = "      title           : T\n"
    ∧ ctlFree "ab".data = true ∧ "ab".data.length ≤ 255
    ∧ dumpTagValue "" ("ab".data ++ '\x0d' :: "cd".data) = "ab cd" := by
  refine ⟨by decide, ?_, by decide, by decide, ?_⟩
  · rw [C5_metadata_dumper.2.2.2.1 "    " "title" "T" (by decide)]
    decide
  · rw [C5_metadata_dumper.2.2.2.2.2.1 "" "ab".data "cd".data (by decide) (by decide)]
    decide

/-! ## Claim C10 -/

/-- C10: each maximal run of non-control characters is emitted truncated
to its first 255 characters — a run longer than 255 characters loses the
characters after the 255th while the scan still advances past the whole
run and continues with what follows the next control byte; long
single-line values are truncated, not wrapped. -/
theorem C10_run_truncation :
    (∀ indent (a : List Char), ctlFree a = true →
        dumpTagValue indent a = String.mk (a.take 255))
    ∧ (∀ indent (a : List Char), ctlFree a = true → 255 < a.length →
        (dumpTagValue indent a).length = 255)
    ∧ (∀ indent (a b : List Char), ctlFree a = true →
        dumpTagValue indent (a ++ '\x0a' :: b) =
          String.mk (a.take 255) ++ ("\n" ++ indent ++ "  " ++ pad16 "" ++ ": ")
            ++ dumpTagValue indent b)
    ∧ (∀ indent k v, k ≠ "language" →
        dump_metadata [(k, v)] indent =
          indent ++ "Metadata:\n"
            ++ (indent ++ "  " ++ pad16 k ++ ": " ++ dumpTagValue indent v.data ++ "\n")) := by
  refine ⟨?_, ?_, ?_, ?_⟩
  · intro indent a ha
    exact dumpTagValue_ctlFree indent a ha
  · intro indent a ha hlen
    rw [dumpTagValue_ctlFree indent a ha]
    simp [String.length, List.length_take]
    omega
  · intro indent a b ha
    rw [dumpTagValue_append_ctl indent a '\x0a' b ha (by decide),
      if_neg (by decide), if_pos rfl]
    simp
  · intro indent k v hk
    have hget : av_dict_get [(k, v)] "language" = none := by
      simp [av_dict_get, List.find?, hk]
    rw [dump_metadata, if_pos ⟨by simp, by simp [hget]⟩]
    simp [tagBlock, String.join, hk]

set_option maxRecDepth 40000 in
/-- Witness for C10: a 300-character run is cut to 255 characters. -/
theorem C10_run_truncation_witness :
    ctlFree (List.replicate 300 'x') = true
    ∧ (dumpTagValue "" (List.replicate 300 'x')).length = 255 := by
  refine ⟨by decide, ?_⟩
  exact C10_run_truncation.2.1 "" (List.replicate 300 'x') (by decide) (by decide)

/-! ## Claim C2 -/

theorem rint_nonneg {q : ℚ} (hq : 0 ≤ q) : 0 ≤ rint q := by
  have hf : (0 : ℤ) ≤ ⌊q⌋ := Int.floor_nonneg.mpr hq
  unfold rint
  dsimp only
  split
  · exact hf
  · split
    · omega
    · split <;> omega

/-- C2 (amended): `print_fps` classifies a non-negative rate by rounding
`d * 100` to the nearest integer with ties TO EVEN (the behaviour of
`lrintf` in the default rounding mode — not ties away from zero as
claimed) and then picks the 4-decimal, 2-decimal, integer, or thousands
form exactly as claimed; the four reference outputs hold.  The bound
keeps the scaled value inside `long`, where `lrintf` is defined. -/
theorem C2_rate_formatter :
    (∀ (d : ℚ) (u : String), 0 ≤ d → rint (d * 100) < 2 ^ 63 →
      print_fps d u =
        (if rint (d * 100) = 0 then formatFixed d 4 ++ " " ++ u
         else if rint (d * 100) % 100 ≠ 0 then formatFixed d 2 ++ " " ++ u
         else if rint (d * 100) % (100 * 1000) ≠ 0 then formatFixed d 0 ++ " " ++ u
         else formatFixed (d / 1000) 0 ++ "k " ++ u))
    ∧ print_fps 23.976 "fps" = "23.98 fps"
    ∧ print_fps 25 "fps" = "25 fps"
    ∧ print_fps 48000 "fps" = "48k fps"
    ∧ print_fps 0 "fps" = "0.0000 fps" := by
  refine ⟨?_, by decide, by decide, by decide, by decide⟩
  intro d u hd hlt
  have h0 : 0 ≤ rint (d * 100) := rint_nonneg (by positivity)
  have hm : (rint (d * 100)).emod (2 ^ 64) = rint (d * 100) :=
    Int.emod_eq_of_lt h0 (lt_trans hlt (by norm_num))
  unfold print_fps
  simp only [hm]

/-- Counterexample to C2 as stated: at d = 0.005 the exact scaled value
is 0.5; `lrintf` (ties to even) yields 0 and the code prints the
4-decimal form "0.0050 fps", while the claimed ties-away-from-zero
rounding yields 1 and selects the 2-decimal form. -/
theorem C2_ties_counterexample :
    print_fps (1/200 : ℚ) "fps" = "0.0050 fps"
    ∧ print_fps_claim (1/200 : ℚ) "fps" = "0.00 fps"
    ∧ print_fps_claim (1/200 : ℚ) "fps" ≠ print_fps (1/200 : ℚ) "fps" :=
  ⟨by decide, by decide, by decide⟩

/-- Witness for C2 at d = 23.976. -/
theorem C2_rate_formatter_witness :
    (0 : ℚ) ≤ 23.976 ∧ rint ((23.976 : ℚ) * 100) < 2 ^ 63
    ∧ print_fps 23.976 "fps" =
        (if rint ((23.976 : ℚ) * 100) = 0 then formatFixed 23.976 4 ++ " " ++ "fps"
         else if rint ((23.976 : ℚ) * 100) % 100 ≠ 0 then
           formatFixed 23.976 2 ++ " " ++ "fps"
         else if rint ((23.976 : ℚ) * 100) % (100 * 1000) ≠ 0 then
           formatFixed 23.976 0 ++ " " ++ "fps"
         else formatFixed ((23.976 : ℚ) / 1000) 0 ++ "k " ++ "fps") :=
  ⟨by decide, by decide, C2_rate_formatter.1 23.976 "fps" (by decide) (by decide)⟩

/-! ## Claim C1 -/

/-- Counterexample to C1 as stated: a Container with zero streams makes
the `printed` marker NULL even though no allocation was attempted, and
`dump_format` returns with no output at all — no header, metadata or
duration/bitrate lines. -/
theorem C1_zero_streams_counterexample :
    dump_format { streams := ([] : List AVStream) } "file.mp4" 32 true = none := by
  decide

/-- C1 (amended): `dump_format` produces the report exactly when the
container has at least one stream and the marker-set allocation
succeeds; it aborts with no output both when that allocation fails and
when the container has zero streams (the C leaves `printed` NULL in both
cases and returns).  Program-listed stream indexes must be in range —
out-of-range ones are undefined behaviour in the C. -/
theorem C1_dump_format_abort :
    (∀ (ic : AVFormatContext) (url : String) (level : Int) (allocOk : Bool),
      ic.streams.length = 0 ∨ allocOk = false →
        dump_format ic url level allocOk = none)
    ∧ (∀ (ic : AVFormatContext) (url : String) (level : Int),
        ic.streams.length ≠ 0 → validPrograms ic →
          ∃ s, dump_format ic url level true = some s) := by
  constructor
  · intro ic url level allocOk h
    unfold dump_format
    rw [if_neg]
    rintro ⟨h1, h2⟩
    rcases h with h | h
    · exact h1 h
    · rw [h] at h2
      exact Bool.false_ne_true h2
  · intro ic url level h1 hv
    exact Option.isSome_iff_exists.mp (dump_format_isSome ic url level h1 hv)

/-- Witness for C1: a one-stream container yields a report. -/
theorem C1_dump_format_abort_witness :
    oneStreamIc.streams.length ≠ 0
    ∧ ∃ s, dump_format oneStreamIc "a.mov" 32 true = some s :=
  ⟨by decide, C1_dump_format_abort.2 oneStreamIc "a.mov" 32 (by decide) (by decide)⟩

/-! ## Claim C6 -/

/-- C6: the formatter never fails on any input model, at any verbosity
level including debug: `print_codec` on a context built from arbitrary
codec parameters always produces output — the context's time base is the
0/1 default of `avcodec_alloc_context3` (never the stream's), so the
unguarded gcd division of the video debug path always has the non-zero
divisor 1 — and `dump_stream_format` produces output for every in-range
stream, including a video stream whose own time base is 0/0. -/
theorem C6_never_fails :
    (∀ (par : AVCodecParameters) (sep : Option String) (level : Int),
      (print_codec { toAVCodecParameters := par, dump_separator := sep } level).isSome = true)
    ∧ (∀ (ic : AVFormatContext) (st : AVStream),
        (stream_avctx ic st).time_base = { num := 0, den := 1 }
        ∧ av_gcd (stream_avctx ic st).time_base.num (stream_avctx ic st).time_base.den = 1)
    ∧ (∀ (ic : AVFormatContext) (i index : Nat) (level : Int),
        i < ic.streams.length → (dump_stream_format ic i index level).isSome = true) := by
  refine ⟨?_, ?_, ?_⟩
  · intro par sep level
    apply print_codec_isSome
    right
    show (1 : Int) ≠ 0
    norm_num
  · intro ic st
    refine ⟨rfl, ?_⟩
    show av_gcd 0 1 = 1
    decide
  · intro ic i index level h
    exact dump_stream_format_isSome ic i index level h

/-- Witness for C6: a video stream with time base 0/0, dumped at debug
level, still renders. -/
theorem C6_never_fails_witness :
    0 < tb00Ic.streams.length
    ∧ (dump_stream_format tb00Ic 0 0 AV_LOG_DEBUG).isSome = true :=
  ⟨by decide, C6_never_fails.2.2 tb00Ic 0 0 AV_LOG_DEBUG (by decide)⟩

/-! ## Claim C3 -/

/-- Counterexample to C3: a stream whose metadata has a "language" entry
is rendered with no "(<value>)" parenthetical at all — the header is
followed directly by ": " and the codec summary (and the lone language
entry is also suppressed from the metadata block). -/
theorem C3_language_counterexample :
    dump_stream_format langIc 0 0 32 = some "  Stream #0:0[0x0]: audio: aac, \n"
    ∧ ¬("(eng)".data <:+: ("  Stream #0:0[0x0]: audio: aac, \n").data) :=
  ⟨by decide, by decide⟩

/-- C3 (amended): the stream header `"  Stream #<index>:<i>[0x<id>]"` is
followed directly by ": " and the codec summary; no language
parenthetical is ever inserted, whatever the stream's metadata. -/
theorem C3_no_language_tag (ic : AVFormatContext) (i index : Nat) (level : Int)
    (st : AVStream) (hst : ic.streams[i]? = some st) :
    ∃ rest, dump_stream_format ic i index level =
      some ("  Stream #" ++ toString index ++ ":" ++ toString i
        ++ "[0x" ++ hexLower ((st.id.emod (2 ^ 32)).toNat) ++ "]" ++ ": " ++ rest) := by
  unfold dump_stream_format
  rw [hst]
  dsimp only
  obtain ⟨c, hc⟩ := Option.isSome_iff_exists.mp
    (print_codec_isSome (stream_avctx ic st) level
      (by rw [stream_avctx_time_base]; right; norm_num))
  rw [hc]
  exact ⟨_, by simp only [Option.map_some', Option.some.injEq, String.append_assoc]; rfl⟩

set_option maxHeartbeats 1000000 in
/-- Witness for C3 (amended) at a concrete stream. -/
theorem C3_no_language_tag_witness :
    langIc.streams[0]? = some langStream
    ∧ ∃ rest, dump_stream_format langIc 0 0 32 =
      some ("  Stream #" ++ toString (0 : Nat) ++ ":" ++ toString (0 : Nat)
        ++ "[0x" ++ hexLower ((langStream.id.emod (2 ^ 32)).toNat) ++ "]" ++ ": " ++ rest) :=
  ⟨rfl, C3_no_language_tag langIc 0 0 32 langStream rfl⟩

/-! ## Claim C4 -/

set_option maxRecDepth 40000 in
/-- Counterexample to C4 as stated: a video stream with its own SAR 2:1
over codec-parameter SAR 1:1 renders the stream-level block as
`", SAR 2:1 DAR 8:3"` — comma-separated and unbracketed — while the
codec-summary-level block of the same line keeps the §4.4 format
`" [SAR 1:1 DAR 4:3]"`; the claimed `" [SAR 2:1 DAR 8:3]"` never
appears. -/
theorem C4_stream_sar_counterexample :
    dump_stream_format sarIc 0 0 32 =
      some "  Stream #0:0[0x0]: video: rawvideo, none, 4x3 [SAR 1:1 DAR 4:3], SAR 2:1 DAR 8:3\n"
    ∧ ¬(" [SAR 2:1 DAR 8:3]".data <:+:
        ("  Stream #0:0[0x0]: video: rawvideo, none, 4x3 [SAR 1:1 DAR 4:3], SAR 2:1 DAR 8:3\n").data)
    ∧ (", SAR 2:1 DAR 8:3".data <:+:
        ("  Stream #0:0[0x0]: video: rawvideo, none, 4x3 [SAR 1:1 DAR 4:3], SAR 2:1 DAR 8:3\n").data) :=
  ⟨by decide, by decide, by decide⟩

/-- C4 (amended): when the stream's own SAR numerator is non-zero and
the SAR differs from the codec-parameter one, the stream-level block is
rendered as `", SAR a:b DAR c:d"` — the same numbers as the §4.4 block
(DAR by bounded reduction of width×SAR-num over height×SAR-den, bound
1024×1024) but comma-separated and without the brackets of the
codec-summary-level block; it follows the codec summary in the stream
line. -/
theorem C4_stream_sar_dar :
    (∀ st : AVStream, st.sample_aspect_ratio.num ≠ 0 →
      av_cmp_q st.sample_aspect_ratio st.codecpar.sample_aspect_ratio ≠ 0 →
      streamSarBlock st =
        ", SAR " ++ toString st.sample_aspect_ratio.num ++ ":"
          ++ toString st.sample_aspect_ratio.den
          ++ " DAR "
          ++ toString (av_reduce (st.codecpar.width * st.sample_aspect_ratio.num)
              (st.codecpar.height * st.sample_aspect_ratio.den) (1024 * 1024)).1
          ++ ":"
          ++ toString (av_reduce (st.codecpar.width * st.sample_aspect_ratio.num)
              (st.codecpar.height * st.sample_aspect_ratio.den) (1024 * 1024)).2)
    ∧ (∀ (ic : AVFormatContext) (i index : Nat) (level : Int) (st : AVStream),
        ic.streams[i]? = some st →
        dump_stream_format ic i index level =
          some ("  Stream #" ++ toString index ++ ":" ++ toString i
            ++ "[0x" ++ hexLower ((st.id.emod (2 ^ 32)).toNat) ++ "]" ++ ": "
            ++ (print_codec (stream_avctx ic st) level).getD ""
            ++ streamSarBlock st ++ streamFpsBlock ic.dump_separator st
            ++ dispositionTags st.disposition ++ "\n"
            ++ dump_metadata st.metadata "    ")) := by
  constructor
  · intro st hnum hcmp
    rw [streamSarBlock, if_pos ⟨hnum, hcmp⟩]
  · intro ic i index level st hst
    unfold dump_stream_format
    rw [hst]
    dsimp only
    obtain ⟨c, hc⟩ := Option.isSome_iff_exists.mp
      (print_codec_isSome (stream_avctx ic st) level
        (by rw [stream_avctx_time_base]; right; norm_num))
    rw [hc]
    rfl

/-- Witness for C4 at the concrete container of the counterexample. -/
theorem C4_stream_sar_dar_witness :
    sarIc.streams[0]? = some sarStream
    ∧ dump_stream_format sarIc 0 0 32 =
        some ("  Stream #" ++ toString (0 : Nat) ++ ":" ++ toString (0 : Nat)
          ++ "[0x" ++ hexLower ((sarStream.id.emod (2 ^ 32)).toNat) ++ "]" ++ ": "
          ++ (print_codec (stream_avctx sarIc sarStream) 32).getD ""
          ++ streamSarBlock sarStream
          ++ streamFpsBlock sarIc.dump_separator sarStream
          ++ dispositionTags sarStream.disposition ++ "\n"
          ++ dump_metadata sarStream.metadata "    ") :=
  ⟨rfl, C4_stream_sar_dar.2 sarIc 0 0 32 sarStream rfl⟩

/-! ## Claim C7 -/

theorem av_rescale_self (a : Int) (ha : 0 ≤ a) : av_rescale a 1000000 1000000 = a := by
  unfold av_rescale
  have h1 : 2 * a * 1000000 + 1000000 = 1000000 * (2 * a + 1) := by ring
  have h2 : (2 : Int) * 1000000 = 1000000 * 2 := by ring
  rw [h1, h2, Int.div_eq_ediv (by omega) (by omega),
    Int.mul_ediv_mul_of_pos _ _ (by norm_num : (0 : Int) < 1000000)]
  omega

theorem toInt32_eq_self (x : Int) (h0 : 0 ≤ x) (h1 : x < 2 ^ 31) : toInt32 x = x := by
  have he : x.emod (2 ^ 32) = x := Int.emod_eq_of_lt h0 (by omega)
  unfold toInt32
  rw [he, if_pos h1]

theorem natAbs_tmod_megabase (a : Int) : (a.tmod 1000000).natAbs < 1000000 := by
  rcases le_or_lt 0 a with ha | ha
  · have h1 := Int.tmod_nonneg 1000000 ha
    have h2 := Int.tmod_lt_of_pos a (by norm_num : (0 : Int) < 1000000)
    omega
  · have hn : (0 : Int) ≤ -a := by omega
    have h1 := Int.tmod_nonneg 1000000 hn
    have h2 := Int.tmod_lt_of_pos (-a) (by norm_num : (0 : Int) < 1000000)
    have h3 : (-a).tmod 1000000 = -(a.tmod 1000000) := by
      rw [Int.tmod_def, Int.tmod_def, Int.neg_tdiv]
      ring
    omega

theorem toString_intCast_natAbs (n : Nat) : toString ((n : Nat) : Int) = toString n := rfl

/-- `startPart` rendered by the amended claim's rule: the only `int`
store that can alter a value is the one receiving the seconds
magnitude. -/
theorem startPart_eq_wrapClaim (ic : AVFormatContext) :
    startPart ic = startWrapClaimPart ic := by
  unfold startPart startWrapClaimPart
  by_cases h : ic.start_time ≠ AV_NOPTS_VALUE
  · rw [if_pos h, if_pos h]
    rw [show AV_TIME_BASE = 1000000 from rfl]
    have hm := natAbs_tmod_megabase ic.start_time
    have h1 : toInt32 ((ic.start_time.tmod 1000000).natAbs : Int)
        = ((ic.start_time.tmod 1000000).natAbs : Int) :=
      toInt32_eq_self _ (Int.natCast_nonneg _) (by omega)
    simp only [h1]
    have hr := av_rescale_self ((ic.start_time.tmod 1000000).natAbs : Int)
      (Int.natCast_nonneg _)
    simp only [hr, h1, toString_intCast_natAbs]
  · rw [if_neg h, if_neg h]

/-- The report contains the duration line between the container metadata
and the chapter section. -/
theorem dump_format_parts (ic : AVFormatContext) (url : String) (level : Int)
    (h1 : ic.streams.length ≠ 0) (hv : validPrograms ic) :
    ∃ tail, dump_format ic url level true =
      some ("Input #0, " ++ ic.iformat_name ++ ", from '" ++ url ++ "':\n"
        ++ dump_metadata ic.metadata "  " ++ durationSegment ic
        ++ chapterSegment ic ++ tail) := by
  unfold dump_format
  rw [if_pos ⟨h1, rfl⟩]
  by_cases hprog : ic.programs.length ≠ 0
  · rw [if_pos hprog]
    obtain ⟨r, hr⟩ := Option.isSome_iff_exists.mp (programsPass_isSome ic level hv)
    rw [hr]
    simp only [Option.pure_def, bind, Option.bind]
    obtain ⟨s, hs⟩ := Option.isSome_iff_exists.mp (dump_format_restFold_isSome ic level
      (r.1 ++ (if r.2.2 < ic.streams.length then "  No Program\n" else ""), r.2.1))
    simp only [Option.pure_def] at hs
    rw [hs]
    exact ⟨_, by simp only [String.append_assoc]; rfl⟩
  · rw [if_neg hprog]
    simp only [Option.pure_def, bind, Option.bind]
    obtain ⟨s, hs⟩ := Option.isSome_iff_exists.mp (dump_format_restFold_isSome ic level
      ("", List.replicate ic.streams.length false))
    simp only [Option.pure_def] at hs
    rw [hs]
    exact ⟨_, by simp only [String.append_assoc]; rfl⟩

set_option maxRecDepth 40000 in
/-- Counterexample to C7 as stated: at start time 3·10^15 µs (3·10^9
seconds) the C stores `llabs(start_time / AV_TIME_BASE)` into an `int`,
which wraps to -1294967296, so the printed clause does not carry the
claimed absolute-value magnitude. -/
theorem C7_start_wrap_counterexample :
    durationSegment bigStartIc
      = "  Duration: N/A, start: -1294967296.000000, bitrate: N/A\n"
    ∧ startClaimPart bigStartIc = ", start: 3000000000.000000"
    ∧ durationSegment bigStartIc
      ≠ "  Duration: " ++ durationClaimPart bigStartIc ++ startClaimPart bigStartIc
        ++ ", bitrate: " ++ bitrateClaimPart bigStartIc ++ "\n" :=
  ⟨by decide, by decide, by decide⟩

/-- C7 (amended): the duration line is `"  Duration: "` + HH:MM:SS.CC of
the duration with the 5000-microsecond bias (bias only if it does not
overflow int64), or "N/A" when unset; a `", start: <sign><seconds>.<6
digit microseconds>"` clause appears exactly when the start time is set,
the sign "-" only for a negative start and the seconds magnitude the
absolute value reduced by the C `long long` → `int` conversion — equal
to the plain absolute value whenever |start_time| < 2^31·10^6 µs; then
`", bitrate: "` with the bit rate divided by 1000 in kb/s or "N/A" when
unset; with everything unset the line is
`"  Duration: N/A, bitrate: N/A"`, the start clause omitted entirely;
and the line appears in the report after the container metadata. -/
theorem C7_duration_line :
    (∀ ic : AVFormatContext,
      durationSegment ic = "  Duration: " ++ durationClaimPart ic ++ startWrapClaimPart ic
        ++ ", bitrate: " ++ bitrateClaimPart ic ++ "\n")
    ∧ (∀ ic : AVFormatContext, ic.start_time.natAbs < 2 ^ 31 * 1000000 →
        startWrapClaimPart ic = startClaimPart ic)
    ∧ (∀ ic : AVFormatContext,
        ic.duration = AV_NOPTS_VALUE → ic.start_time = AV_NOPTS_VALUE → ic.bit_rate = 0 →
        durationSegment ic = "  Duration: N/A, bitrate: N/A\n")
    ∧ (∀ ic : AVFormatContext, ic.start_time = AV_NOPTS_VALUE →
        durationSegment ic = "  Duration: " ++ durationClaimPart ic
          ++ ", bitrate: " ++ bitrateClaimPart ic ++ "\n")
    ∧ (∀ (ic : AVFormatContext) (url : String) (level : Int),
        ic.streams.length ≠ 0 → validPrograms ic →
        ∃ tail, dump_format ic url level true =
          some ("Input #0, " ++ ic.iformat_name ++ ", from '" ++ url ++ "':\n"
            ++ dump_metadata ic.metadata "  " ++ durationSegment ic
            ++ chapterSegment ic ++ tail)) := by
  have hdur : ∀ ic : AVFormatContext, durationPart ic = durationClaimPart ic := by
    intro ic
    rfl
  have hbr : ∀ ic : AVFormatContext, bitratePart ic = bitrateClaimPart ic := by
    intro ic
    rfl
  refine ⟨?_, ?_, ?_, ?_, ?_⟩
  · intro ic
    unfold durationSegment
    rw [hdur, hbr, startPart_eq_wrapClaim]
  · intro ic hb
    unfold startWrapClaimPart startClaimPart
    by_cases h : ic.start_time ≠ AV_NOPTS_VALUE
    · rw [if_pos h, if_pos h]
      have h4 : (ic.start_time.tdiv 1000000).natAbs = ic.start_time.natAbs / 1000000 := by
        rw [Int.natAbs_tdiv]
        rfl
      have hd : ((ic.start_time.tdiv 1000000).natAbs : Int) < 2 ^ 31 := by
        rw [h4]
        have h5 : ic.start_time.natAbs / 1000000 < 2 ^ 31 := by omega
        exact_mod_cast h5
      rw [toInt32_eq_self _ (Int.natCast_nonneg _) hd]
      simp only [toString_intCast_natAbs]
    · rw [if_neg h, if_neg h]
  · intro ic h1 h2 h3
    unfold durationSegment durationPart startPart bitratePart
    rw [if_neg (by simp [h1]), if_neg (by simp [h2]), if_neg (by simp [h3])]
    rfl
  · intro ic h2
    unfold durationSegment
    rw [hdur, hbr, startPart_eq_wrapClaim]
    unfold startWrapClaimPart
    rw [if_neg (by simp [h2])]
    simp
  · intro ic url level h1 hv
    exact dump_format_parts ic url level h1 hv

/-- Witness for C7 at a concrete container (duration 1.5 s, start
-0.5 s, bitrate 1234567), inside the no-wrap range. -/
theorem C7_duration_line_witness :
    durIc.start_time.natAbs < 2 ^ 31 * 1000000
    ∧ durationSegment durIc = "  Duration: " ++ durationClaimPart durIc
        ++ startWrapClaimPart durIc ++ ", bitrate: " ++ bitrateClaimPart durIc ++ "\n"
    ∧ startWrapClaimPart durIc = startClaimPart durIc
    ∧ durationSegment durIc =
        "  Duration: 00:00:01.50, start: -0.500000, bitrate: 1234 kb/s\n" :=
  ⟨by decide, C7_duration_line.1 durIc, C7_duration_line.2.1 durIc (by decide), by decide⟩

/-! ## Claim C8 -/

/-- Counterexample to C8 as stated: an attachment-type codec context
with declared bit rate 8000 has effective bit rate 8000 ≠ 0, yet its
codec summary is only the header — `print_codec` returns at the
`default` switch case before the bitrate tail for attachment (and
unknown) types, so no ", 8 kb/s" suffix appears. -/
theorem C8_attachment_counterexample :
    get_bit_rate attCtx = 8000
    ∧ print_codec attCtx 32 = some "attachment: ttf"
    ∧ ¬(" kb/s".data <:+: ("attachment: ttf").data) :=
  ⟨by decide, by decide, by decide⟩

/-- C8 (amended): for audio with a known fixed bits-per-sample the
effective bit rate is sample_rate × channel_count × bits_per_sample,
except 0 when that product would exceed `INT64_MAX`; for audio without
fixed bits-per-sample and for video/data/subtitle/attachment it is the
declared bit rate (0 for an unknown type).  The summary's tail is
", <N> kb/s" (truncating division by 1000) when the effective bit rate
is non-zero, else ", max. <N> kb/s" when `rc_max_rate` is positive, else
empty — and that tail is appended for audio (and the other
switch-handled types), while attachment/unknown summaries stop at the
header and never carry it. -/
theorem C8_bit_rate :
    (∀ ctx : AVCodecContext, ctx.codec_type = .audio →
      0 < ctx.codec_id.bits_per_sample → 0 ≤ ctx.sample_rate →
      0 ≤ ctx.ch_layout.nb_channels →
      get_bit_rate ctx =
        (if ctx.sample_rate * ctx.ch_layout.nb_channels * ctx.codec_id.bits_per_sample
            > INT64_MAX then 0
         else ctx.sample_rate * ctx.ch_layout.nb_channels * ctx.codec_id.bits_per_sample))
    ∧ (∀ ctx : AVCodecContext, ctx.codec_type = .audio →
        ctx.codec_id.bits_per_sample = 0 → get_bit_rate ctx = ctx.bit_rate)
    ∧ (∀ ctx : AVCodecContext,
        ctx.codec_type = .video ∨ ctx.codec_type = .data ∨ ctx.codec_type = .subtitle
          ∨ ctx.codec_type = .attachment →
        get_bit_rate ctx = ctx.bit_rate)
    ∧ (∀ ctx : AVCodecContext, get_bit_rate ctx ≠ 0 →
        bitrateTail ctx = ", " ++ toString ((get_bit_rate ctx).tdiv 1000) ++ " kb/s")
    ∧ (∀ ctx : AVCodecContext, get_bit_rate ctx = 0 → 0 < ctx.rc_max_rate →
        bitrateTail ctx = ", max. " ++ toString (ctx.rc_max_rate.tdiv 1000) ++ " kb/s")
    ∧ (∀ ctx : AVCodecContext, get_bit_rate ctx = 0 → ¬0 < ctx.rc_max_rate →
        bitrateTail ctx = "")
    ∧ (∀ (ctx : AVCodecContext) (level : Int), ctx.codec_type = .audio →
        print_codec ctx level = some (codecHead ctx level
          ++ audioCase ctx level (ctx.dump_separator.getD ", ") ++ bitrateTail ctx))
    ∧ (∀ (ctx : AVCodecContext) (level : Int),
        ctx.codec_type = .attachment ∨ ctx.codec_type = .unknown →
        print_codec ctx level = some (codecHead ctx level)) := by
  refine ⟨?_, ?_, ?_, ?_, ?_, ?_, ?_, ?_⟩
  · intro ctx hct hbps hsr hch
    have hbps' : ctx.codec_id.bits_per_sample ≠ 0 := by omega
    simp only [get_bit_rate, hct]
    rw [if_pos hbps']
    have htd : INT64_MAX.tdiv ctx.codec_id.bits_per_sample
        = INT64_MAX / ctx.codec_id.bits_per_sample :=
      Int.div_eq_ediv (by unfold INT64_MAX; omega) (by omega)
    have key : ctx.sample_rate * ctx.ch_layout.nb_channels
          ≤ INT64_MAX / ctx.codec_id.bits_per_sample
        ↔ ctx.sample_rate * ctx.ch_layout.nb_channels * ctx.codec_id.bits_per_sample
          ≤ INT64_MAX := Int.le_ediv_iff_mul_le hbps
    have hiff : ctx.sample_rate * ctx.ch_layout.nb_channels
          > INT64_MAX.tdiv ctx.codec_id.bits_per_sample
        ↔ ctx.sample_rate * ctx.ch_layout.nb_channels * ctx.codec_id.bits_per_sample
          > INT64_MAX := by
      rw [htd]
      constructor
      · intro hgt
        by_contra hnot
        have h2 := key.mpr (by omega)
        omega
      · intro hgt
        by_contra hnot
        have h2 := key.mp (by omega)
        omega
    exact if_congr hiff rfl rfl
  · intro ctx hct hbps
    simp only [get_bit_rate, hct]
    rw [if_neg (by omega)]
  · intro ctx h
    rcases h with h | h | h | h <;> simp only [get_bit_rate, h]
  · intro ctx h
    rw [bitrateTail, if_pos h]
  · intro ctx h0 hrc
    rw [bitrateTail, if_neg (by omega), if_pos hrc]
  · intro ctx h0 hrc
    rw [bitrateTail, if_neg (by omega), if_neg hrc]
  · intro ctx level hct
    simp only [print_codec, hct]
  · intro ctx level h
    rcases h with h | h <;> simp only [print_codec, h]

/-- Witness for C8 at a concrete PCM context (48000 Hz × 2 ch × 16
bit = 1536000 b/s → ", 1536 kb/s"). -/
theorem C8_bit_rate_witness :
    pcmCtx.codec_type = AVMediaType.audio
    ∧ 0 < pcmCtx.codec_id.bits_per_sample
    ∧ (0 : Int) ≤ pcmCtx.sample_rate
    ∧ (0 : Int) ≤ pcmCtx.ch_layout.nb_channels
    ∧ get_bit_rate pcmCtx =
        (if pcmCtx.sample_rate * pcmCtx.ch_layout.nb_channels
            * pcmCtx.codec_id.bits_per_sample > INT64_MAX then 0
         else pcmCtx.sample_rate * pcmCtx.ch_layout.nb_channels
            * pcmCtx.codec_id.bits_per_sample)
    ∧ get_bit_rate pcmCtx = 1536000
    ∧ bitrateTail pcmCtx = ", 1536 kb/s" :=
  ⟨rfl, by decide, by decide, by decide,
    C8_bit_rate.1 pcmCtx rfl (by decide) (by decide) (by decide),
    by decide, by decide⟩

/-! ## Claim C9 -/

theorem markAll_cons (pr : List Bool) (x : Nat) (xs : List Nat) :
    markAll pr (x :: xs) = markAll (pr.set x true) xs := rfl

theorem markAll_length (l : List Nat) : ∀ pr : List Bool,
    (markAll pr l).length = pr.length := by
  induction l with
  | nil => intro pr; rfl
  | cons x xs ih =>
    intro pr
    rw [markAll_cons, ih, List.length_set]

theorem markAll_getD (l : List Nat) : ∀ (pr : List Bool) (i : Nat), i < pr.length →
    (markAll pr l).getD i false = (pr.getD i false || l.contains i) := by
  induction l with
  | nil =>
    intro pr i _
    simp [markAll]
  | cons x xs ih =>
    intro pr i hi
    rw [markAll_cons, ih (pr.set x true) i (by rw [List.length_set]; exact hi)]
    rw [show (x :: xs).contains i = (i == x || xs.contains i) from rfl]
    by_cases hx : x = i
    · subst hx
      rw [List.getD_eq_getElem?_getD, List.getElem?_set_eq hi]
      simp
    · rw [List.getD_eq_getElem?_getD, List.getElem?_set_ne hx,
        ← List.getD_eq_getElem?_getD]
      have hbeq : (i == x) = false := by
        simp only [beq_eq_false_iff_ne, ne_eq]
        omega
      rw [hbeq]
      simp [Bool.or_assoc]

theorem string_foldl_append (l : List String) :
    ∀ a : String, l.foldl (fun r s => r ++ s) a = a ++ l.foldl (fun r s => r ++ s) "" := by
  induction l with
  | nil =>
    intro a
    simp
  | cons x xs ih =>
    intro a
    rw [List.foldl_cons, List.foldl_cons, ih (a ++ x), ih ("" ++ x)]
    simp [String.append_assoc]

theorem string_join_cons (x : String) (xs : List String) :
    String.join (x :: xs) = x ++ String.join xs := by
  show (x :: xs).foldl (fun r s => r ++ s) "" = x ++ xs.foldl (fun r s => r ++ s) ""
  rw [List.foldl_cons, string_foldl_append]
  simp

/-- The per-program stream fold of `programsPass` renders the listed
streams in order and marks them. -/
theorem programStreams_fold (ic : AVFormatContext) (level : Int) (l : List Nat) :
    ∀ (s0 : String) (pr : List Bool), (∀ i ∈ l, i < ic.streams.length) →
      l.foldlM (fun (sp : String × List Bool) idx => do
          let out ← dump_stream_format ic idx 0 level
          pure (sp.1 ++ out, sp.2.set idx true)) ((s0, pr) : String × List Bool)
        = some (s0 ++ String.join (l.map (fun i =>
            (dump_stream_format ic i 0 level).getD "")), markAll pr l) := by
  induction l with
  | nil =>
    intro s0 pr _
    simp [markAll, String.join]
  | cons x xs ih =>
    intro s0 pr hval
    rw [List.foldlM_cons]
    obtain ⟨out, hout⟩ := Option.isSome_iff_exists.mp
      (dump_stream_format_isSome ic x 0 level (hval x (by simp)))
    rw [hout]
    have ihx := ih (s0 ++ out) (pr.set x true)
      (fun i hi => hval i (List.mem_cons_of_mem _ hi))
    simp only [Option.pure_def, bind, Option.bind] at ihx ⊢
    rw [ihx, markAll_cons, List.map_cons, string_join_cons]
    simp [hout, String.append_assoc]

/-- The program loop renders one block per program, in order, and its
marker array ends up as the sequential marking of all listed indexes. -/
theorem programsPass_eq (ic : AVFormatContext) (level : Int)
    (hv : validPrograms ic) :
    programsPass ic level =
      some (String.join (ic.programs.map (programBlock ic level)),
        ic.programs.foldl (fun pr p => markAll pr p.stream_index)
          (List.replicate ic.streams.length false),
        (ic.programs.map (fun p => p.stream_index.length)).sum) := by
  have main : ∀ (ps : List AVProgram),
      (∀ p ∈ ps, ∀ i ∈ p.stream_index, i < ic.streams.length) →
      ∀ acc : String × List Bool × Nat,
      ps.foldlM (fun acc p => do
          let hdr := "  Program " ++ toString p.id ++ " "
            ++ ((av_dict_get p.metadata "name").getD "") ++ "\n"
            ++ dump_metadata p.metadata "    "
          let sp ← p.stream_index.foldlM (fun (sp : String × List Bool) idx => do
              let out ← dump_stream_format ic idx 0 level
              pure (sp.1 ++ out, sp.2.set idx true)) (("", acc.2.1) : String × List Bool)
          pure (acc.1 ++ hdr ++ sp.1, sp.2, acc.2.2 + p.stream_index.length)) acc
        = some (acc.1 ++ String.join (ps.map (programBlock ic level)),
            ps.foldl (fun pr p => markAll pr p.stream_index) acc.2.1,
            acc.2.2 + (ps.map (fun p => p.stream_index.length)).sum) := by
    intro ps
    induction ps with
    | nil =>
      intro _ acc
      simp [String.join]
    | cons p ps ih =>
      intro hval acc
      rw [List.foldlM_cons]
      dsimp only
      rw [programStreams_fold ic level p.stream_index "" acc.2.1
        (fun i hi => hval p (by simp) i hi)]
      have ihx := ih (fun q hq i hi => hval q (List.mem_cons_of_mem _ hq) i hi)
      simp only [Option.pure_def, bind, Option.bind] at ihx ⊢
      rw [ihx, List.map_cons, string_join_cons, List.foldl_cons, List.map_cons,
        List.sum_cons]
      refine congrArg some (Prod.ext ?_ (Prod.ext ?_ ?_))
      · dsimp only
        simp [programBlock, String.append_assoc]
      · rfl
      · dsimp only
        omega
  unfold programsPass
  rw [main ic.programs hv _]
  simp

/-- The final marker array marks exactly the program-listed indexes. -/
theorem printed_eq_listed (ic : AVFormatContext) (i : Nat)
    (hi : i < ic.streams.length) :
    (ic.programs.foldl (fun pr p => markAll pr p.stream_index)
        (List.replicate ic.streams.length false)).getD i false
      = listedByPrograms ic i := by
  unfold listedByPrograms
  have main : ∀ (ps : List AVProgram) (pr0 : List Bool), i < pr0.length →
      (ps.foldl (fun pr p => markAll pr p.stream_index) pr0).getD i false
        = (pr0.getD i false || ps.any (fun p => p.stream_index.contains i)) := by
    intro ps
    induction ps with
    | nil =>
      intro pr0 _
      simp
    | cons p ps ih =>
      intro pr0 h0
      rw [List.foldl_cons, ih (markAll pr0 p.stream_index)
        (by rw [markAll_length]; exact h0)]
      rw [markAll_getD _ _ _ h0]
      simp [Bool.or_assoc]
  rw [main ic.programs _ (by rw [List.length_replicate]; exact hi)]
  simp

/-- The trailing loop of `dump_format` renders, in container order,
exactly the streams no program listed. -/
theorem restFold_eq (ic : AVFormatContext) (level : Int) (pr : List Bool)
    (hpr : ∀ i, i < ic.streams.length → pr.getD i false = listedByPrograms ic i) :
    ∀ (l : List Nat) (acc : String), (∀ i ∈ l, i < ic.streams.length) →
      l.foldlM (fun acc i =>
          if pr.getD i false then pure acc
          else (dump_stream_format ic i 0 level).map (fun s => acc ++ s)) acc
        = some (acc ++ String.join ((l.filter (fun i => !listedByPrograms ic i)).map
            (fun i => (dump_stream_format ic i 0 level).getD ""))) := by
  intro l
  induction l with
  | nil =>
    intro acc _
    simp [String.join]
  | cons x xs ih =>
    intro acc hval
    rw [List.foldlM_cons]
    have hx : pr.getD x false = listedByPrograms ic x := hpr x (hval x (by simp))
    by_cases hlist : listedByPrograms ic x = true
    · rw [if_pos (by rw [hx, hlist]), List.filter_cons]
      rw [show (!listedByPrograms ic x) = false from by rw [hlist]; rfl]
      simp only [Option.pure_def, bind, Option.bind, if_false]
      exact ih acc (fun i hi => hval i (List.mem_cons_of_mem _ hi))
    · have hlist2 : listedByPrograms ic x = false := by
        cases h : listedByPrograms ic x
        · rfl
        · exact absurd h hlist
      rw [if_neg (by rw [hx, hlist2]; exact Bool.false_ne_true), List.filter_cons]
      rw [show (!listedByPrograms ic x) = true from by rw [hlist2]; rfl]
      obtain ⟨out, hout⟩ := Option.isSome_iff_exists.mp
        (dump_stream_format_isSome ic x 0 level (hval x (by simp)))
      rw [hout]
      simp only [Option.map_some', bind, Option.bind, if_true]
      rw [ih (acc ++ out) (fun i hi => hval i (List.mem_cons_of_mem _ hi))]
      rw [List.map_cons, string_join_cons]
      simp [hout, String.append_assoc]

/-- C9: with programs present (and valid stream indexes), the report
renders, after the chapter section, one block per program -- each listed
stream rendered once per listing, so an index listed by two programs is
rendered twice -- then the "  No Program" line exactly when the total
count of program-listed streams is smaller than the container's stream
count, then, in container order, exactly the streams no program listed
(marked streams are never re-rendered). -/
theorem C9_program_sections (ic : AVFormatContext) (url : String) (level : Int)
    (hprog : ic.programs.length ≠ 0) (hs : ic.streams.length ≠ 0)
    (hv : validPrograms ic) :
    dump_format ic url level true =
      some ("Input #0, " ++ ic.iformat_name ++ ", from '" ++ url ++ "':\n"
        ++ dump_metadata ic.metadata "  " ++ durationSegment ic ++ chapterSegment ic
        ++ (String.join (ic.programs.map (programBlock ic level))
            ++ (if (ic.programs.map (fun p => p.stream_index.length)).sum
                  < ic.streams.length then "  No Program\n" else ""))
        ++ String.join (((List.range ic.streams.length).filter
              (fun i => !listedByPrograms ic i)).map
            (fun i => (dump_stream_format ic i 0 level).getD ""))) := by
  unfold dump_format
  rw [if_pos ⟨hs, rfl⟩, if_pos hprog, programsPass_eq ic level hv]
  have hrf := restFold_eq ic level
    (ic.programs.foldl (fun pr p => markAll pr p.stream_index)
      (List.replicate ic.streams.length false))
    (fun i hi => printed_eq_listed ic i hi)
    (List.range ic.streams.length) ""
    (fun i hi => List.mem_range.mp hi)
  simp only [Option.pure_def, bind, Option.bind] at hrf ⊢
  rw [hrf]
  simp only [Option.some.injEq]
  simp [String.append_assoc]

/-- Witness for C9: two programs both list stream 0; its block appears
once per program and not a third time, and since the programs claim 2 of
the 2 streams no "  No Program" line appears while the unlisted stream 1
is rendered in the trailing pass. -/
theorem C9_program_sections_witness :
    progIc.programs.length ≠ 0 ∧ progIc.streams.length ≠ 0 ∧ validPrograms progIc
    ∧ dump_format progIc "f.ts" 32 true =
        some ("Input #0, " ++ progIc.iformat_name ++ ", from '" ++ "f.ts" ++ "':\n"
          ++ dump_metadata progIc.metadata "  " ++ durationSegment progIc
          ++ chapterSegment progIc
          ++ (String.join (progIc.programs.map (programBlock progIc 32))
              ++ (if (progIc.programs.map (fun p => p.stream_index.length)).sum
                    < progIc.streams.length then "  No Program\n" else ""))
          ++ String.join (((List.range progIc.streams.length).filter
                (fun i => !listedByPrograms progIc i)).map
              (fun i => (dump_stream_format progIc i 0 32).getD ""))) :=
  ⟨by decide, by decide, by decide,
    C9_program_sections progIc "f.ts" 32 (by decide) (by decide) (by decide)⟩

end SimpleFFprobe
